import Mathlib

/-!
Verification of the ESP32 Zigbee Bridge core against its specification.

The C sources are shallowly embedded: each C module's state becomes a Lean
structure, each function a Lean function threading that state explicitly.
Machine integers are modelled as `Nat`/`Int`; the only places where 32-bit
wrap-around could matter (tick arithmetic, statistics counters) are noted at
the definition. C `float` values are modelled as exact rationals (`Rat`);
no claim settled here depends on IEEE rounding. Fixed-capacity C arrays are
modelled as lists whose slots carry the source's `valid`/`in_use` flags, and
array loops become structural recursion over those lists in index order.
-/

namespace Bridge

/-- Error codes, from `os_types.h` `os_err_t`. -/
inductive OsErr where
  | OK
  | INVALID_ARG
  | NO_MEM
  | TIMEOUT
  | FULL
  | EMPTY
  | NOT_FOUND
  | BUSY
  | ALREADY_EXISTS
  | NOT_INITIALIZED
  | NOT_READY
  deriving Repr, DecidableEq

/-! ## Event bus (`os_event.c`) -/

/-- `OS_EVENT_QUEUE_SIZE` from `os_config.h`. -/
def OS_EVENT_QUEUE_SIZE : Nat := 256

/-- `OS_EVENT_PAYLOAD_SIZE` from `os_event.h`. -/
def OS_EVENT_PAYLOAD_SIZE : Nat := 32

/-- Event record, from `os_event.h` `os_event_t`.  Payload bytes as a list. -/
structure OsEvent where
  type : Nat
  timestamp : Nat
  corr_id : Nat
  src_id : Nat
  payload_len : Nat
  payload : List Nat
  deriving Repr, DecidableEq

/-- Bus statistics, from `os_event.h` `os_event_stats_t`.  The C counters are
`uint32_t`; they are modelled as `Nat` (they are only ever incremented, and
no claim here depends on wrap at `2^32`). -/
structure OsEventStats where
  events_published : Nat
  events_dispatched : Nat
  events_dropped : Nat
  queue_high_water : Nat
  current_queue_size : Nat
  deriving Repr, DecidableEq

/-- Event-bus state, from the `bus` static in `os_event.c`.  The ring buffer
`queue[OS_EVENT_QUEUE_SIZE]` is a list of that length; `head`/`tail` advance
modulo `OS_EVENT_QUEUE_SIZE` exactly as in the source.  Subscribers only
receive events (they do not change bus state within `dispatch` itself), so
the subscriber table is not part of the state needed by the claims below. -/
structure EventBus where
  initialized : Bool
  queue : List OsEvent
  head : Nat
  tail : Nat
  count : Nat
  stats : OsEventStats
  next_corr_id : Nat
  deriving Repr, DecidableEq

def zeroEvent : OsEvent :=
  { type := 0, timestamp := 0, corr_id := 0, src_id := 0, payload_len := 0, payload := [] }

/-- State established by `os_event_init`: everything zeroed,
`next_corr_id = 1`, `initialized = true`. -/
def osEventInitState : EventBus :=
  { initialized := true,
    queue := List.replicate OS_EVENT_QUEUE_SIZE zeroEvent,
    head := 0,
    tail := 0,
    count := 0,
    stats := { events_published := 0, events_dispatched := 0, events_dropped := 0,
               queue_high_water := 0, current_queue_size := 0 },
    next_corr_id := 1 }

/-- `os_event_publish` from `os_event.c`.  `now` is the value `os_now_ticks()`
would return.  The C NULL-pointer check has no counterpart (events are
values here). -/
def os_event_publish (s : EventBus) (event : OsEvent) (now : Nat) : OsErr × EventBus :=
  if !s.initialized then (.NOT_INITIALIZED, s)
  else if s.count ≥ OS_EVENT_QUEUE_SIZE then
    (.FULL, { s with stats := { s.stats with events_dropped := s.stats.events_dropped + 1 } })
  else
    let slot := if event.timestamp = 0 then { event with timestamp := now } else event
    let count' := s.count + 1
    let hw := if count' > s.stats.queue_high_water then count' else s.stats.queue_high_water
    (.OK, { s with
        queue := s.queue.set s.tail slot,
        tail := (s.tail + 1) % OS_EVENT_QUEUE_SIZE,
        count := count',
        stats := { s.stats with
                   events_published := s.stats.events_published + 1,
                   queue_high_water := hw } })

/-- `os_event_emit` from `os_event.c`: builds an event stamped with
`os_now_ticks()` and a payload truncated to `OS_EVENT_PAYLOAD_SIZE`,
then publishes it. -/
def os_event_emit (s : EventBus) (type : Nat) (payload : List Nat) (now : Nat) :
    OsErr × EventBus :=
  let plen := min payload.length OS_EVENT_PAYLOAD_SIZE
  os_event_publish s
    { type := type, timestamp := now, corr_id := 0, src_id := 0,
      payload_len := plen, payload := payload.take OS_EVENT_PAYLOAD_SIZE } now

/-- The dispatch loop of `os_event_dispatch`: runs `fuel` iterations (the
precomputed `to_dispatch`), stopping early if the queue empties; each
iteration delivers the head event to the matching subscribers (no bus-state
effect), advances `head`, decrements `count` and bumps
`stats.events_dispatched`.  Returns the number dispatched and the new state. -/
def dispatchLoop : Nat → EventBus → Nat × EventBus
  | 0, s => (0, s)
  | fuel + 1, s =>
    if s.count = 0 then (0, s)
    else
      let s' : EventBus :=
        { s with head := (s.head + 1) % OS_EVENT_QUEUE_SIZE,
                 count := s.count - 1,
                 stats := { s.stats with
                            events_dispatched := s.stats.events_dispatched + 1 } }
      ((dispatchLoop fuel s').1 + 1, (dispatchLoop fuel s').2)

/-- `os_event_dispatch` from `os_event.c`.  Handler bodies are external user
code; any bus calls they make appear as separate operations of a trace. -/
def os_event_dispatch (s : EventBus) (max_events : Nat) : Nat × EventBus :=
  if !s.initialized || s.count = 0 then (0, s)
  else
    let to_dispatch := if max_events = 0 then s.count else min max_events s.count
    let s' := (dispatchLoop to_dispatch s).2
    ((dispatchLoop to_dispatch s).1,
     { s' with stats := { s'.stats with current_queue_size := s'.count } })

/-- `os_event_get_stats` from `os_event.c`: the returned statistics carry
`current_queue_size = bus.count`. -/
def os_event_get_stats (s : EventBus) : OsEventStats :=
  { s.stats with current_queue_size := s.count }

/-- One bus API call, for reasoning about call sequences. -/
inductive BusOp where
  | publish (e : OsEvent) (now : Nat)
  | emit (type : Nat) (payload : List Nat) (now : Nat)
  | dispatch (max_events : Nat)
  deriving Repr

def busStep (s : EventBus) : BusOp → EventBus
  | .publish e now => (os_event_publish s e now).2
  | .emit t p now => (os_event_emit s t p now).2
  | .dispatch m => (os_event_dispatch s m).2

/-- The bus state after a sequence of calls starting from `s`. -/
def busRun (s : EventBus) (ops : List BusOp) : EventBus := ops.foldl busStep s

/-- The C3 claim, literally: `events_published = events_dispatched +
events_dropped + current_queue_size` (with `current_queue_size` as reported
by `os_event_get_stats`, i.e. `bus.count`). -/
def statsClaimC3 (s : EventBus) : Prop :=
  s.stats.events_published =
    s.stats.events_dispatched + s.stats.events_dropped + s.count

/-- The amended invariant: dropped events are never counted as published
(publish returns `Full` before touching `events_published`), so the identity
that actually holds is `published = dispatched + current_queue_size`. -/
def statsInvariant (s : EventBus) : Prop :=
  s.stats.events_published = s.stats.events_dispatched + s.count

theorem statsInvariant_publish (s : EventBus) (e : OsEvent) (now : Nat)
    (h : statsInvariant s) : statsInvariant (os_event_publish s e now).2 := by
  unfold statsInvariant at *
  unfold os_event_publish
  split_ifs <;> simp_all <;> omega

theorem statsInvariant_dispatchLoop (fuel : Nat) :
    ∀ s : EventBus, statsInvariant s → statsInvariant (dispatchLoop fuel s).2 := by
  induction fuel with
  | zero => intro s h; simpa [dispatchLoop] using h
  | succ n ih =>
    intro s h
    unfold dispatchLoop
    by_cases hc : s.count = 0
    · simpa [hc] using h
    · simp only [hc, if_false, if_neg hc]
      apply ih
      unfold statsInvariant at *
      simp only
      omega

theorem statsInvariant_setCqs (s : EventBus) (h : statsInvariant s) :
    statsInvariant { s with stats := { s.stats with current_queue_size := s.count } } := by
  unfold statsInvariant at *
  simpa using h

theorem statsInvariant_busStep (s : EventBus) (op : BusOp) (h : statsInvariant s) :
    statsInvariant (busStep s op) := by
  cases op with
  | publish e now => exact statsInvariant_publish s e now h
  | emit t p now => exact statsInvariant_publish s _ now h
  | dispatch m =>
    show statsInvariant (os_event_dispatch s m).2
    unfold os_event_dispatch
    split_ifs with h1 h2
    · exact h
    · exact statsInvariant_setCqs _ (statsInvariant_dispatchLoop s.count s h)
    · exact statsInvariant_setCqs _ (statsInvariant_dispatchLoop (min m s.count) s h)

theorem statsInvariant_busRun (ops : List BusOp) :
    ∀ s : EventBus, statsInvariant s → statsInvariant (busRun s ops) := by
  induction ops with
  | nil => intro s h; exact h
  | cons op rest ih =>
    intro s h
    exact ih (busStep s op) (statsInvariant_busStep s op h)

/-- Publishing `n` events into a bus with room for them succeeds `n` times:
counters and queue occupancy advance accordingly and nothing is dropped. -/
theorem busRun_publish_fill (e : OsEvent) (now : Nat) : ∀ (n : Nat) (s : EventBus),
    s.initialized = true → s.count + n ≤ OS_EVENT_QUEUE_SIZE →
    (busRun s (List.replicate n (BusOp.publish e now))).count = s.count + n ∧
    (busRun s (List.replicate n (BusOp.publish e now))).stats.events_published
      = s.stats.events_published + n ∧
    (busRun s (List.replicate n (BusOp.publish e now))).stats.events_dropped
      = s.stats.events_dropped ∧
    (busRun s (List.replicate n (BusOp.publish e now))).stats.events_dispatched
      = s.stats.events_dispatched ∧
    (busRun s (List.replicate n (BusOp.publish e now))).initialized = true := by
  intro n
  induction n with
  | zero => intro s hinit _; simp [busRun, hinit]
  | succ k ih =>
    intro s hinit hroom
    have hlt : ¬ s.count ≥ OS_EVENT_QUEUE_SIZE := by omega
    have hstep : busRun s (List.replicate (k + 1) (BusOp.publish e now))
        = busRun (busStep s (BusOp.publish e now)) (List.replicate k (BusOp.publish e now)) := by
      rw [List.replicate_succ]; rfl
    rw [hstep]
    have hs' : (busStep s (BusOp.publish e now)).count = s.count + 1 ∧
        (busStep s (BusOp.publish e now)).stats.events_published
          = s.stats.events_published + 1 ∧
        (busStep s (BusOp.publish e now)).stats.events_dropped = s.stats.events_dropped ∧
        (busStep s (BusOp.publish e now)).stats.events_dispatched
          = s.stats.events_dispatched ∧
        (busStep s (BusOp.publish e now)).initialized = true := by
      simp only [busStep]
      unfold os_event_publish
      simp [hinit, hlt]
    obtain ⟨h1, h2, h3, h4, h5⟩ := hs'
    obtain ⟨g1, g2, g3, g4, g5⟩ := ih (busStep s (BusOp.publish e now)) h5 (by omega)
    exact ⟨by omega, by omega, by omega, by omega, g5⟩

/-- Publishing into a full bus: only `events_dropped` moves. -/
theorem busStep_publish_full (s : EventBus) (e : OsEvent) (now : Nat)
    (hinit : s.initialized = true) (hfull : s.count ≥ OS_EVENT_QUEUE_SIZE) :
    (busStep s (BusOp.publish e now)).count = s.count ∧
    (busStep s (BusOp.publish e now)).stats.events_published = s.stats.events_published ∧
    (busStep s (BusOp.publish e now)).stats.events_dropped = s.stats.events_dropped + 1 ∧
    (busStep s (BusOp.publish e now)).stats.events_dispatched
      = s.stats.events_dispatched := by
  simp only [busStep]
  unfold os_event_publish
  simp [hinit, hfull]

def evOne : OsEvent := { zeroEvent with timestamp := 1 }

/-- C3, counterexample.  From the freshly initialised bus, 257 successive
`os_event_publish` calls (one more than the queue capacity of 256) reach a
state with `events_published = 256`, `events_dropped = 1`,
`events_dispatched = 0` and `count = 256`, so the claimed identity
`published = dispatched + dropped + current_queue_size` fails:
`256 ≠ 0 + 1 + 256`.  A dropped event is never counted as published. -/
theorem os_event_stats_claim_fails :
    ¬ statsClaimC3 (busRun osEventInitState (List.replicate 257 (BusOp.publish evOne 1))) := by
  have hsplit : (List.replicate 257 (BusOp.publish evOne 1))
      = List.replicate 256 (BusOp.publish evOne 1) ++ [BusOp.publish evOne 1] := by
    rw [← List.replicate_succ']
  have hfill := busRun_publish_fill evOne 1 256 osEventInitState (by rfl)
    (by unfold osEventInitState OS_EVENT_QUEUE_SIZE; simp)
  obtain ⟨hc, hp, hd, hdi, hi⟩ := hfill
  have hinit0 : osEventInitState.count = 0 := rfl
  have hpub0 : osEventInitState.stats.events_published = 0 := rfl
  have hdrop0 : osEventInitState.stats.events_dropped = 0 := rfl
  have hdisp0 : osEventInitState.stats.events_dispatched = 0 := rfl
  set mid := busRun osEventInitState (List.replicate 256 (BusOp.publish evOne 1)) with hmid
  have hful : mid.count ≥ OS_EVENT_QUEUE_SIZE := by
    rw [hc, hinit0]; exact Nat.le_refl _
  have hlast := busStep_publish_full mid evOne 1 hi hful
  obtain ⟨l1, l2, l3, l4⟩ := hlast
  have hrun : busRun osEventInitState (List.replicate 257 (BusOp.publish evOne 1))
      = busStep mid (BusOp.publish evOne 1) := by
    rw [hsplit, hmid]
    unfold busRun
    rw [List.foldl_append]
    rfl
  rw [hrun]
  unfold statsClaimC3
  omega

/-- C3, amended.  At every state reachable from the initialised bus by any
sequence of `os_event_publish` / `os_event_emit` / `os_event_dispatch`
calls, `events_published = events_dispatched + current_queue_size`
(dropped events are excluded: a rejected publish never increments
`events_published`). -/
theorem os_event_stats_invariant (ops : List BusOp) :
    statsInvariant (busRun osEventInitState ops) :=
  statsInvariant_busRun ops osEventInitState rfl

/-- C7.  When the queue already holds `OS_EVENT_QUEUE_SIZE` events,
`os_event_publish` returns `Full`, increments `events_dropped` by one, and
leaves the ring buffer contents, `head`, `tail` and `count` unchanged: no
stored event is overwritten and no slot is consumed. -/
theorem os_event_publish_full (s : EventBus) (e : OsEvent) (now : Nat)
    (hinit : s.initialized = true) (hfull : s.count ≥ OS_EVENT_QUEUE_SIZE) :
    (os_event_publish s e now).1 = OsErr.FULL ∧
    (os_event_publish s e now).2.stats.events_dropped = s.stats.events_dropped + 1 ∧
    (os_event_publish s e now).2.queue = s.queue ∧
    (os_event_publish s e now).2.head = s.head ∧
    (os_event_publish s e now).2.tail = s.tail ∧
    (os_event_publish s e now).2.count = s.count ∧
    (os_event_publish s e now).2.stats.events_published = s.stats.events_published ∧
    (os_event_publish s e now).2.stats.events_dispatched
      = s.stats.events_dispatched := by
  unfold os_event_publish
  simp [hinit, hfull]

/-- A concrete full bus: the initialised state with all 256 slots occupied. -/
def fullBus : EventBus :=
  { osEventInitState with
    count := 256,
    stats := { osEventInitState.stats with
               events_published := 256,
               queue_high_water := 256, current_queue_size := 256 } }

/-- Witness for C7 at a concrete full bus. -/
theorem os_event_publish_full_witness :
    fullBus.initialized = true ∧ fullBus.count ≥ OS_EVENT_QUEUE_SIZE ∧
    ((os_event_publish fullBus evOne 3).1 = OsErr.FULL ∧
     (os_event_publish fullBus evOne 3).2.stats.events_dropped
       = fullBus.stats.events_dropped + 1 ∧
     (os_event_publish fullBus evOne 3).2.queue = fullBus.queue ∧
     (os_event_publish fullBus evOne 3).2.head = fullBus.head ∧
     (os_event_publish fullBus evOne 3).2.tail = fullBus.tail ∧
     (os_event_publish fullBus evOne 3).2.count = fullBus.count ∧
     (os_event_publish fullBus evOne 3).2.stats.events_published
       = fullBus.stats.events_published ∧
     (os_event_publish fullBus evOne 3).2.stats.events_dispatched
       = fullBus.stats.events_dispatched) :=
  ⟨rfl, by decide, os_event_publish_full fullBus evOne 3 rfl (by decide)⟩

/-! ## Persistence (`os_persist.c`, host variant)

The backing store (a directory of files under `PERSIST_DIR`) is modelled as
a finite map from path keys to byte blobs; file-system failures (`fopen`
errors, short writes) are outside the model, so `write_file` always
succeeds, as it does on a healthy file system.  `key_to_path` keeps the
`"%.32s"` truncation of the key. -/

/-- `OS_PERSIST_KEY_MAX` from `os_persist.h`. -/
def OS_PERSIST_KEY_MAX : Nat := 32

/-- `OS_PERSIST_VALUE_MAX` from `os_persist.h`. -/
def OS_PERSIST_VALUE_MAX : Nat := 512

/-- `WRITE_BUFFER_SIZE` from `os_persist.c`. -/
def WRITE_BUFFER_SIZE : Nat := 16

/-- `write_buffer_entry_t` from `os_persist.c`.  The C `len` field is
`data.length` here. -/
structure WriteBufEntry where
  key : List Char
  data : List Nat
  valid : Bool
  deriving Repr, DecidableEq

/-- The persistence service state (`persist` static in `os_persist.c`)
together with the backing file store. -/
structure PersistState where
  initialized : Bool
  write_buffer : List WriteBufEntry
  writes_buffered : Nat
  total_writes : Nat
  total_reads : Nat
  schema_version : Nat
  store : List Char → Option (List Nat)

/-- `key_to_path`: the file name uses `"%.32s"` of the key. -/
def key_to_path (key : List Char) : List Char := key.take OS_PERSIST_KEY_MAX

/-- `write_file`: store the blob under the path derived from the key. -/
def write_file (store : List Char → Option (List Nat)) (key : List Char)
    (data : List Nat) : List Char → Option (List Nat) :=
  fun p => if p = key_to_path key then some data else store p

/-- `read_file`: `NOT_FOUND` when no file exists, `NO_MEM` (and nothing
copied) when the file is larger than the caller's buffer, otherwise the
whole blob and its length.  Result: (error, bytes copied, `out_len`). -/
def read_file (store : List Char → Option (List Nat)) (key : List Char)
    (buf_len : Nat) : OsErr × List Nat × Option Nat :=
  match store (key_to_path key) with
  | none => (.NOT_FOUND, [], none)
  | some d => if d.length > buf_len then (.NO_MEM, [], none) else (.OK, d, some d.length)

/-- First loop of `os_persist_put`: overwrite the first valid entry with
this key, `strncpy`-truncating the stored key to `OS_PERSIST_KEY_MAX - 1`
characters.  `none` when no valid entry has the key. -/
def putExisting : List WriteBufEntry → List Char → List Nat → Option (List WriteBufEntry)
  | [], _, _ => none
  | e :: rest, key, data =>
    if e.valid && e.key == key then
      some ({ key := key.take (OS_PERSIST_KEY_MAX - 1), data := data, valid := true } :: rest)
    else (putExisting rest key data).map (e :: ·)

/-- Second loop of `os_persist_put`: claim the first free slot.  `none`
when the buffer is full. -/
def putFree : List WriteBufEntry → List Char → List Nat → Option (List WriteBufEntry)
  | [], _, _ => none
  | e :: rest, key, data =>
    if !e.valid then
      some ({ key := key.take (OS_PERSIST_KEY_MAX - 1), data := data, valid := true } :: rest)
    else (putFree rest key data).map (e :: ·)

/-- The flush loop of `os_persist_flush`: write every valid entry to the
backing store in slot order and invalidate it.  Result: (new buffer, new
store, number flushed). -/
def flushBuf : List WriteBufEntry → (List Char → Option (List Nat)) →
    List WriteBufEntry × (List Char → Option (List Nat)) × Nat
  | [], store => ([], store, 0)
  | e :: rest, store =>
    if e.valid then
      ({ e with valid := false } :: (flushBuf rest (write_file store e.key e.data)).1,
       (flushBuf rest (write_file store e.key e.data)).2.1,
       (flushBuf rest (write_file store e.key e.data)).2.2 + 1)
    else
      (e :: (flushBuf rest store).1, (flushBuf rest store).2.1, (flushBuf rest store).2.2)

/-- `os_persist_flush` from `os_persist.c`.  The returned count is the one
carried by the `PERSIST_FLUSH` event the C code emits when it is
positive. -/
def os_persist_flush (s : PersistState) : OsErr × PersistState × Nat :=
  if !s.initialized then (.NOT_INITIALIZED, s, 0)
  else
    (.OK,
     { s with write_buffer := (flushBuf s.write_buffer s.store).1,
              store := (flushBuf s.write_buffer s.store).2.1,
              total_writes := s.total_writes + (flushBuf s.write_buffer s.store).2.2,
              writes_buffered := 0 },
     (flushBuf s.write_buffer s.store).2.2)

/-- `os_persist_put` from `os_persist.c`: overwrite an existing buffered
entry for the key, else take a free slot, else flush first and reuse
slot 0. -/
def os_persist_put (s : PersistState) (key : List Char) (data : List Nat) :
    OsErr × PersistState :=
  if !s.initialized then (.INVALID_ARG, s)
  else if data.length > OS_PERSIST_VALUE_MAX then (.INVALID_ARG, s)
  else
    match putExisting s.write_buffer key data with
    | some buf => (.OK, { s with write_buffer := buf })
    | none =>
      match putFree s.write_buffer key data with
      | some buf =>
        (.OK, { s with write_buffer := buf, writes_buffered := s.writes_buffered + 1 })
      | none =>
        (.OK,
         { (os_persist_flush s).2.1 with
           write_buffer :=
             match (os_persist_flush s).2.1.write_buffer with
             | [] => [{ key := key.take (OS_PERSIST_KEY_MAX - 1), data := data,
                        valid := true }]
             | _ :: rest =>
               { key := key.take (OS_PERSIST_KEY_MAX - 1), data := data,
                 valid := true } :: rest,
           writes_buffered := (os_persist_flush s).2.1.writes_buffered + 1 })

/-- The write-buffer scan of `os_persist_get`: data of the first valid
entry with this key. -/
def getBuf : List WriteBufEntry → List Char → Option (List Nat)
  | [], _ => none
  | e :: rest, key => if e.valid && e.key == key then some e.data else getBuf rest key

/-- `os_persist_get` from `os_persist.c`.  Result: (error, bytes copied
into the caller's buffer, `out_len` if written, new state).  A write-buffer
hit copies at most `buf_len` bytes but reports the full stored length;
a backing-store read of an oversized blob fails with `NO_MEM`. -/
def os_persist_get (s : PersistState) (key : List Char) (buf_len : Nat) :
    OsErr × List Nat × Option Nat × PersistState :=
  if !s.initialized then (.INVALID_ARG, [], none, s)
  else
    match getBuf s.write_buffer key with
    | some d =>
      (.OK, d.take buf_len, some d.length, { s with total_reads := s.total_reads + 1 })
    | none =>
      ((read_file s.store key buf_len).1, (read_file s.store key buf_len).2.1,
       (read_file s.store key buf_len).2.2, { s with total_reads := s.total_reads + 1 })

/-- Valid entries carry keys shorter than `OS_PERSIST_KEY_MAX` (true of
every entry the code itself writes, by the `strncpy` bound). -/
def ShortKeys (buf : List WriteBufEntry) : Prop :=
  ∀ e ∈ buf, e.valid = true → e.key.length < OS_PERSIST_KEY_MAX

/-- At most one valid entry per key (the code preserves this: a new slot is
claimed only after the existing-entry scan missed). -/
def KeysOnce (buf : List WriteBufEntry) : Prop :=
  buf.Pairwise (fun a b => a.valid = true → b.valid = true → a.key ≠ b.key)

theorem key_to_path_short (k : List Char) (h : k.length < OS_PERSIST_KEY_MAX) :
    key_to_path k = k :=
  List.take_of_length_le (by omega)

theorem take_key_short (k : List Char) (h : k.length < OS_PERSIST_KEY_MAX) :
    k.take (OS_PERSIST_KEY_MAX - 1) = k :=
  List.take_of_length_le (by unfold OS_PERSIST_KEY_MAX at h ⊢; omega)

theorem putExisting_getBuf (key : List Char) (data : List Nat)
    (hk : key.take (OS_PERSIST_KEY_MAX - 1) = key) :
    ∀ buf buf', putExisting buf key data = some buf' → getBuf buf' key = some data := by
  intro buf
  induction buf with
  | nil => intro buf' h; simp [putExisting] at h
  | cons e rest ih =>
    intro buf' h
    by_cases hc : (e.valid && e.key == key) = true
    · rw [putExisting, if_pos hc] at h
      cases h
      simp [getBuf, hk]
    · rw [putExisting, if_neg hc] at h
      obtain ⟨b, hb, rfl⟩ := Option.map_eq_some'.mp h
      rw [getBuf, if_neg hc]
      exact ih b hb

theorem putFree_getBuf (key : List Char) (data : List Nat)
    (hk : key.take (OS_PERSIST_KEY_MAX - 1) = key) :
    ∀ buf buf', putExisting buf key data = none → putFree buf key data = some buf' →
      getBuf buf' key = some data := by
  intro buf
  induction buf with
  | nil => intro buf' _ h; simp [putFree] at h
  | cons e rest ih =>
    intro buf' hex h
    by_cases hv : e.valid = true
    · have hc : (e.valid && e.key == key) = false := by
        by_cases hkey : (e.key == key) = true
        · exfalso
          rw [putExisting, if_pos (by simp [hv, hkey])] at hex
          exact Option.noConfusion hex
        · simp [hkey]
      rw [putFree, if_neg (by simp [hv])] at h
      obtain ⟨b, hb, rfl⟩ := Option.map_eq_some'.mp h
      have hex' : putExisting rest key data = none := by
        rw [putExisting, if_neg (by simp [hc])] at hex
        exact Option.map_eq_none'.mp hex
      rw [getBuf, if_neg (by simp [hc])]
      exact ih b hex' hb
    · rw [putFree, if_pos (by simp [hv])] at h
      cases h
      simp [getBuf, hk]

theorem flushBuf_all_invalid :
    ∀ (buf : List WriteBufEntry) (store : List Char → Option (List Nat)),
      ∀ e ∈ (flushBuf buf store).1, e.valid = false := by
  intro buf
  induction buf with
  | nil => intro store e he; simp [flushBuf] at he
  | cons a rest ih =>
    intro store e he
    by_cases hv : a.valid = true
    · rw [flushBuf, if_pos hv] at he
      rcases List.mem_cons.mp he with rfl | hmem
      · rfl
      · exact ih _ e hmem
    · rw [flushBuf, if_neg hv] at he
      rcases List.mem_cons.mp he with rfl | hmem
      · simpa using hv
      · exact ih _ e hmem

theorem getBuf_none_of_invalid :
    ∀ buf : List WriteBufEntry, (∀ e ∈ buf, e.valid = false) →
      ∀ key, getBuf buf key = none := by
  intro buf
  induction buf with
  | nil => intro _ key; rfl
  | cons a rest ih =>
    intro h key
    have ha : a.valid = false := h a (List.mem_cons_self a rest)
    rw [getBuf, if_neg (by simp [ha])]
    exact ih (fun e he => h e (List.mem_cons_of_mem a he)) key

theorem flushBuf_store_preserve (key : List Char) :
    ∀ (buf : List WriteBufEntry) (store : List Char → Option (List Nat)),
      (∀ e ∈ buf, e.valid = true → key_to_path e.key ≠ key_to_path key) →
      (flushBuf buf store).2.1 (key_to_path key) = store (key_to_path key) := by
  intro buf
  induction buf with
  | nil => intro store _; rfl
  | cons a rest ih =>
    intro store hpres
    by_cases hv : a.valid = true
    · rw [flushBuf, if_pos hv]
      have hrest := ih (write_file store a.key a.data)
        (fun e he hev => hpres e (List.mem_cons_of_mem a he) hev)
      rw [hrest]
      unfold write_file
      rw [if_neg]
      intro hcontra
      exact hpres a (List.mem_cons_self a rest) hv hcontra.symm
    · rw [flushBuf, if_neg hv]
      exact ih store (fun e he hev => hpres e (List.mem_cons_of_mem a he) hev)

theorem flushBuf_store_of_getBuf (key : List Char) (v : List Nat)
    (hk : key.length < OS_PERSIST_KEY_MAX) :
    ∀ (buf : List WriteBufEntry) (store : List Char → Option (List Nat)),
      ShortKeys buf → KeysOnce buf → getBuf buf key = some v →
      (flushBuf buf store).2.1 (key_to_path key) = some v := by
  intro buf
  induction buf with
  | nil => intro store _ _ hg; simp [getBuf] at hg
  | cons e rest ih =>
    intro store hs ho hg
    have hs' : ShortKeys rest := fun f hf => hs f (List.mem_cons_of_mem e hf)
    have ho' : KeysOnce rest := (List.pairwise_cons.mp ho).2
    by_cases hc : (e.valid && e.key == key) = true
    · have hc2 := hc
      rw [Bool.and_eq_true] at hc2
      have hv : e.valid = true := hc2.1
      have hkey : e.key = key := beq_iff_eq.mp hc2.2
      have hdata : e.data = v := by
        rw [getBuf, if_pos hc] at hg
        exact Option.some.inj hg
      have hpres : ∀ f ∈ rest, f.valid = true → key_to_path f.key ≠ key_to_path key := by
        intro f hf hfv hpath
        have hfk : f.key.length < OS_PERSIST_KEY_MAX := hs' f hf hfv
        rw [key_to_path_short f.key hfk, key_to_path_short key hk] at hpath
        have hne := (List.pairwise_cons.mp ho).1 f hf hv hfv
        rw [hkey] at hne
        exact hne hpath.symm
      rw [flushBuf, if_pos hv]
      rw [flushBuf_store_preserve key rest _ hpres]
      unfold write_file
      rw [if_pos (by rw [hkey]), hdata]
    · have hg' : getBuf rest key = some v := by rwa [getBuf, if_neg hc] at hg
      by_cases hv : e.valid = true
      · rw [flushBuf, if_pos hv]
        exact ih (write_file store e.key e.data) hs' ho' hg'
      · rw [flushBuf, if_neg hv]
        exact ih store hs' ho' hg'

def newWbEntry (key : List Char) (data : List Nat) : WriteBufEntry :=
  { key := key.take (OS_PERSIST_KEY_MAX - 1), data := data, valid := true }

theorem putExisting_mem (key : List Char) (data : List Nat) :
    ∀ buf buf', putExisting buf key data = some buf' →
      ∀ x ∈ buf', x ∈ buf ∨ x = newWbEntry key data := by
  intro buf
  induction buf with
  | nil => intro buf' h; simp [putExisting] at h
  | cons e rest ih =>
    intro buf' h x hx
    by_cases hc : (e.valid && e.key == key) = true
    · rw [putExisting, if_pos hc] at h
      cases h
      rcases List.mem_cons.mp hx with rfl | hmem
      · exact Or.inr rfl
      · exact Or.inl (List.mem_cons_of_mem e hmem)
    · rw [putExisting, if_neg hc] at h
      obtain ⟨b, hb, rfl⟩ := Option.map_eq_some'.mp h
      rcases List.mem_cons.mp hx with rfl | hmem
      · exact Or.inl (List.mem_cons_self x rest)
      · rcases ih b hb x hmem with hr | hr
        · exact Or.inl (List.mem_cons_of_mem e hr)
        · exact Or.inr hr

theorem putFree_mem (key : List Char) (data : List Nat) :
    ∀ buf buf', putFree buf key data = some buf' →
      ∀ x ∈ buf', x ∈ buf ∨ x = newWbEntry key data := by
  intro buf
  induction buf with
  | nil => intro buf' h; simp [putFree] at h
  | cons e rest ih =>
    intro buf' h x hx
    by_cases hv : e.valid = true
    · rw [putFree, if_neg (by simp [hv])] at h
      obtain ⟨b, hb, rfl⟩ := Option.map_eq_some'.mp h
      rcases List.mem_cons.mp hx with rfl | hmem
      · exact Or.inl (List.mem_cons_self x rest)
      · rcases ih b hb x hmem with hr | hr
        · exact Or.inl (List.mem_cons_of_mem e hr)
        · exact Or.inr hr
    · rw [putFree, if_pos (by simp [hv])] at h
      cases h
      rcases List.mem_cons.mp hx with rfl | hmem
      · exact Or.inr rfl
      · exact Or.inl (List.mem_cons_of_mem e hmem)

theorem newWbEntry_short (key : List Char) (data : List Nat) :
    (newWbEntry key data).key.length < OS_PERSIST_KEY_MAX := by
  unfold newWbEntry
  simp only [List.length_take]
  unfold OS_PERSIST_KEY_MAX
  omega

theorem putExisting_none_no_key (key : List Char) (data : List Nat) :
    ∀ buf, putExisting buf key data = none →
      ∀ e ∈ buf, e.valid = true → e.key ≠ key := by
  intro buf
  induction buf with
  | nil => intro _ e he; simp at he
  | cons a rest ih =>
    intro h e he hv
    have hc : (a.valid && a.key == key) ≠ true := by
      intro hc
      rw [putExisting, if_pos hc] at h
      exact Option.noConfusion h
    rw [putExisting, if_neg hc] at h
    rcases List.mem_cons.mp he with rfl | hmem
    · intro hkey
      exact hc (by simp [hv, hkey])
    · exact ih (Option.map_eq_none'.mp h) e hmem hv

theorem once_of_invalid (buf : List WriteBufEntry)
    (h : ∀ e ∈ buf, e.valid = false) : KeysOnce buf := by
  induction buf with
  | nil => exact List.Pairwise.nil
  | cons a rest ih =>
    refine List.pairwise_cons.mpr ⟨?_, ih (fun e he => h e (List.mem_cons_of_mem a he))⟩
    intro b _ hav _
    exact absurd (h a (List.mem_cons_self a rest)) (by simp [hav])

theorem short_of_invalid (buf : List WriteBufEntry)
    (h : ∀ e ∈ buf, e.valid = false) : ShortKeys buf := by
  intro e he hv
  exact absurd (h e he) (by simp [hv])

theorem putExisting_once (key : List Char) (data : List Nat)
    (hk : key.take (OS_PERSIST_KEY_MAX - 1) = key) :
    ∀ buf buf', putExisting buf key data = some buf' → KeysOnce buf → KeysOnce buf' := by
  intro buf
  induction buf with
  | nil => intro buf' h; simp [putExisting] at h
  | cons e rest ih =>
    intro buf' h ho
    obtain ⟨hhead, hrest⟩ := List.pairwise_cons.mp ho
    by_cases hc : (e.valid && e.key == key) = true
    · rw [putExisting, if_pos hc] at h
      cases h
      have hc2 := hc
      rw [Bool.and_eq_true] at hc2
      have hkey : e.key = key := beq_iff_eq.mp hc2.2
      refine List.pairwise_cons.mpr ⟨?_, hrest⟩
      intro b hb _ hbv
      have hne := hhead b hb hc2.1 hbv
      rw [hkey] at hne
      show (newWbEntry key data).key ≠ b.key
      unfold newWbEntry
      simpa [hk] using hne
    · rw [putExisting, if_neg hc] at h
      obtain ⟨b, hb, rfl⟩ := Option.map_eq_some'.mp h
      refine List.pairwise_cons.mpr ⟨?_, ih b hb hrest⟩
      intro x hx hev hxv
      rcases putExisting_mem key data rest b hb x hx with hmem | rfl
      · exact hhead x hmem hev hxv
      · show e.key ≠ (newWbEntry key data).key
        unfold newWbEntry
        simp only [hk]
        intro hekey
        exact hc (by simp [hev, hekey])

theorem putFree_once (key : List Char) (data : List Nat)
    (hk : key.take (OS_PERSIST_KEY_MAX - 1) = key) :
    ∀ buf buf', putExisting buf key data = none → putFree buf key data = some buf' →
      KeysOnce buf → KeysOnce buf' := by
  intro buf
  induction buf with
  | nil => intro buf' _ h; simp [putFree] at h
  | cons e rest ih =>
    intro buf' hex h ho
    obtain ⟨hhead, hrest⟩ := List.pairwise_cons.mp ho
    have hc : (e.valid && e.key == key) ≠ true := by
      intro hc
      rw [putExisting, if_pos hc] at hex
      exact Option.noConfusion hex
    have hex' : putExisting rest key data = none := by
      rw [putExisting, if_neg hc] at hex
      exact Option.map_eq_none'.mp hex
    by_cases hv : e.valid = true
    · rw [putFree, if_neg (by simp [hv])] at h
      obtain ⟨b, hb, rfl⟩ := Option.map_eq_some'.mp h
      refine List.pairwise_cons.mpr ⟨?_, ih b hex' hb hrest⟩
      intro x hx hev hxv
      rcases putFree_mem key data rest b hb x hx with hmem | rfl
      · exact hhead x hmem hev hxv
      · show e.key ≠ (newWbEntry key data).key
        unfold newWbEntry
        simp only [hk]
        intro hekey
        exact hc (by simp [hv, hekey])
    · rw [putFree, if_pos (by simp [hv])] at h
      cases h
      refine List.pairwise_cons.mpr ⟨?_, hrest⟩
      intro b hb _ hbv
      show (newWbEntry key data).key ≠ b.key
      unfold newWbEntry
      simp only [hk]
      exact fun hbk => putExisting_none_no_key key data rest hex' b hb hbv hbk.symm

theorem flush_state (s : PersistState) (h : s.initialized = true) :
    (os_persist_flush s).2.1.initialized = true ∧
    (os_persist_flush s).2.1.write_buffer = (flushBuf s.write_buffer s.store).1 ∧
    (os_persist_flush s).2.1.store = (flushBuf s.write_buffer s.store).2.1 := by
  unfold os_persist_flush
  rw [if_neg (by simp [h])]
  exact ⟨h, rfl, rfl⟩

/-- After a successful `os_persist_put`, the write buffer answers the key
with exactly the data just stored, and stays well-formed. -/
theorem put_fields (s : PersistState) (key : List Char) (data : List Nat)
    (hinit : s.initialized = true) (hlen : data.length ≤ OS_PERSIST_VALUE_MAX)
    (hk : key.take (OS_PERSIST_KEY_MAX - 1) = key)
    (hs : ShortKeys s.write_buffer) (ho : KeysOnce s.write_buffer) :
    (os_persist_put s key data).1 = OsErr.OK ∧
    (os_persist_put s key data).2.initialized = true ∧
    getBuf (os_persist_put s key data).2.write_buffer key = some data ∧
    ShortKeys (os_persist_put s key data).2.write_buffer ∧
    KeysOnce (os_persist_put s key data).2.write_buffer := by
  unfold os_persist_put
  rw [if_neg (by simp [hinit]), if_neg (by omega)]
  cases hex : putExisting s.write_buffer key data with
  | some buf =>
    refine ⟨rfl, hinit, putExisting_getBuf key data hk _ buf hex, ?_,
            putExisting_once key data hk _ buf hex ho⟩
    intro x hx hv
    rcases putExisting_mem key data _ buf hex x hx with hm | rfl
    · exact hs x hm hv
    · exact newWbEntry_short key data
  | none =>
    cases hfr : putFree s.write_buffer key data with
    | some buf =>
      refine ⟨rfl, hinit, putFree_getBuf key data hk _ buf hex hfr, ?_,
              putFree_once key data hk _ buf hex hfr ho⟩
      intro x hx hv
      rcases putFree_mem key data _ buf hfr x hx with hm | rfl
      · exact hs x hm hv
      · exact newWbEntry_short key data
    | none =>
      obtain ⟨hfi, hfb, _⟩ := flush_state s hinit
      have hinv : ∀ e ∈ (os_persist_flush s).2.1.write_buffer, e.valid = false := by
        rw [hfb]; exact flushBuf_all_invalid _ _
      cases hwb : (os_persist_flush s).2.1.write_buffer with
      | nil =>
        refine ⟨rfl, hfi, by simp [getBuf, hk], ?_, ?_⟩
        · intro x hx hv
          rcases List.mem_singleton.mp hx with rfl
          exact newWbEntry_short key data
        · exact List.pairwise_singleton _ _
      | cons a rest =>
        have hrestinv : ∀ e ∈ rest, e.valid = false := by
          intro e he
          exact hinv e (hwb ▸ List.mem_cons_of_mem a he)
        refine ⟨rfl, hfi, by simp [getBuf, hk], ?_, ?_⟩
        · intro x hx hv
          rcases List.mem_cons.mp hx with rfl | hm
          · exact newWbEntry_short key data
          · exact absurd (hrestinv x hm) (by simp [hv])
        · refine List.pairwise_cons.mpr ⟨?_, once_of_invalid rest hrestinv⟩
          intro b hb _ hbv
          exact absurd (hrestinv b hb) (by simp [hbv])

/-- A write-buffer hit with a large enough caller buffer returns the stored
value in full. -/
theorem buf_get (p : PersistState) (k : List Char) (v : List Nat) (buf_len : Nat)
    (hinit : p.initialized = true) (hg : getBuf p.write_buffer k = some v)
    (hb : v.length ≤ buf_len) :
    (os_persist_get p k buf_len).1 = OsErr.OK ∧
    (os_persist_get p k buf_len).2.1 = v ∧
    (os_persist_get p k buf_len).2.2.1 = some v.length := by
  unfold os_persist_get
  rw [if_neg (by simp [hinit]), hg]
  exact ⟨rfl, by simpa using List.take_of_length_le hb, rfl⟩

/-- Flushing a well-formed buffer makes its latest value for a key visible
through the backing store. -/
theorem read_file_found (store : List Char → Option (List Nat)) (k : List Char)
    (buf_len : Nat) (d : List Nat) (hst : store (key_to_path k) = some d)
    (hlen : d.length ≤ buf_len) :
    read_file store k buf_len = (.OK, d, some d.length) := by
  unfold read_file
  rw [hst]
  show (if d.length > buf_len then (OsErr.NO_MEM, [], none)
        else (OsErr.OK, d, some d.length)) = _
  rw [if_neg (by omega)]

theorem flush_get (p : PersistState) (k : List Char) (v : List Nat) (buf_len : Nat)
    (hinit : p.initialized = true) (hk : k.length < OS_PERSIST_KEY_MAX)
    (hs : ShortKeys p.write_buffer) (ho : KeysOnce p.write_buffer)
    (hg : getBuf p.write_buffer k = some v) (hb : v.length ≤ buf_len) :
    (os_persist_get (os_persist_flush p).2.1 k buf_len).1 = OsErr.OK ∧
    (os_persist_get (os_persist_flush p).2.1 k buf_len).2.1 = v ∧
    (os_persist_get (os_persist_flush p).2.1 k buf_len).2.2.1 = some v.length := by
  obtain ⟨hfi, hfb, hfs⟩ := flush_state p hinit
  unfold os_persist_get
  rw [if_neg (by simp [hfi])]
  have hnone : getBuf (os_persist_flush p).2.1.write_buffer k = none := by
    rw [hfb]; exact getBuf_none_of_invalid _ (flushBuf_all_invalid _ _) k
  rw [hnone]
  have hread : read_file (os_persist_flush p).2.1.store k buf_len
      = (.OK, v, some v.length) := by
    apply read_file_found
    · rw [hfs]; exact flushBuf_store_of_getBuf k v hk _ _ hs ho hg
    · exact hb
  rw [hread]
  exact ⟨rfl, rfl, rfl⟩

/-- C8.  Persistence round-trips: with `k` and the values within the size
limits and the caller's buffer large enough, (1) `put(k,v); flush(); get(k)`
returns `v`; (2) `put(k,v1); put(k,v2); get(k)` returns `v2`; (3) likewise
with a `flush()` between the two puts; (4) likewise with a `flush()` after
them — the write buffer keeps the latest value per key and `get` consults
the buffer before the backing store.  `ShortKeys`/`KeysOnce` record that
the starting buffer is as the code itself builds it: stored keys within the
`strncpy` bound and at most one valid entry per key. -/
theorem os_persist_roundtrip (s : PersistState) (k : List Char)
    (v v1 v2 : List Nat) (buf_len : Nat)
    (hinit : s.initialized = true)
    (hk : k.length < OS_PERSIST_KEY_MAX)
    (hv : v.length ≤ OS_PERSIST_VALUE_MAX)
    (hv1 : v1.length ≤ OS_PERSIST_VALUE_MAX)
    (hv2 : v2.length ≤ OS_PERSIST_VALUE_MAX)
    (hshort : ShortKeys s.write_buffer) (honce : KeysOnce s.write_buffer)
    (hb : v.length ≤ buf_len) (hb2 : v2.length ≤ buf_len) :
    ((os_persist_get (os_persist_flush (os_persist_put s k v).2).2.1 k buf_len).1
        = OsErr.OK ∧
     (os_persist_get (os_persist_flush (os_persist_put s k v).2).2.1 k buf_len).2.1
        = v) ∧
    ((os_persist_get (os_persist_put (os_persist_put s k v1).2 k v2).2 k buf_len).1
        = OsErr.OK ∧
     (os_persist_get (os_persist_put (os_persist_put s k v1).2 k v2).2 k buf_len).2.1
        = v2) ∧
    ((os_persist_get
        (os_persist_put (os_persist_flush (os_persist_put s k v1).2).2.1 k v2).2
        k buf_len).1 = OsErr.OK ∧
     (os_persist_get
        (os_persist_put (os_persist_flush (os_persist_put s k v1).2).2.1 k v2).2
        k buf_len).2.1 = v2) ∧
    ((os_persist_get
        (os_persist_flush (os_persist_put (os_persist_put s k v1).2 k v2).2).2.1
        k buf_len).1 = OsErr.OK ∧
     (os_persist_get
        (os_persist_flush (os_persist_put (os_persist_put s k v1).2 k v2).2).2.1
        k buf_len).2.1 = v2) := by
  have hktake : k.take (OS_PERSIST_KEY_MAX - 1) = k := take_key_short k hk
  obtain ⟨_, pv_init, pv_get, pv_short, pv_once⟩ :=
    put_fields s k v hinit hv hktake hshort honce
  obtain ⟨_, p1_init, p1_get, p1_short, p1_once⟩ :=
    put_fields s k v1 hinit hv1 hktake hshort honce
  refine ⟨?_, ?_, ?_, ?_⟩
  · obtain ⟨h1, h2, _⟩ := flush_get (os_persist_put s k v).2 k v buf_len
      pv_init hk pv_short pv_once pv_get hb
    exact ⟨h1, h2⟩
  · obtain ⟨_, p2_init, p2_get, _, _⟩ :=
      put_fields (os_persist_put s k v1).2 k v2 p1_init hv2 hktake p1_short p1_once
    obtain ⟨h1, h2, _⟩ := buf_get (os_persist_put (os_persist_put s k v1).2 k v2).2
      k v2 buf_len p2_init p2_get hb2
    exact ⟨h1, h2⟩
  · obtain ⟨ff_init, ff_buf, _⟩ := flush_state (os_persist_put s k v1).2 p1_init
    have ff_inv : ∀ e ∈ (os_persist_flush (os_persist_put s k v1).2).2.1.write_buffer,
        e.valid = false := by
      rw [ff_buf]; exact flushBuf_all_invalid _ _
    obtain ⟨_, p3_init, p3_get, _, _⟩ :=
      put_fields (os_persist_flush (os_persist_put s k v1).2).2.1 k v2 ff_init hv2
        hktake (short_of_invalid _ ff_inv) (once_of_invalid _ ff_inv)
    obtain ⟨h1, h2, _⟩ := buf_get
      (os_persist_put (os_persist_flush (os_persist_put s k v1).2).2.1 k v2).2
      k v2 buf_len p3_init p3_get hb2
    exact ⟨h1, h2⟩
  · obtain ⟨_, p2_init, p2_get, p2_short, p2_once⟩ :=
      put_fields (os_persist_put s k v1).2 k v2 p1_init hv2 hktake p1_short p1_once
    obtain ⟨h1, h2, _⟩ := flush_get (os_persist_put (os_persist_put s k v1).2 k v2).2
      k v2 buf_len p2_init hk p2_short p2_once p2_get hb2
    exact ⟨h1, h2⟩

def zeroWbEntry : WriteBufEntry := { key := [], data := [], valid := false }

/-- The persistence state right after `os_persist_init` on an empty backing
directory. -/
def persistInitState : PersistState :=
  { initialized := true,
    write_buffer := List.replicate WRITE_BUFFER_SIZE zeroWbEntry,
    writes_buffered := 0, total_writes := 0, total_reads := 0,
    schema_version := 0,
    store := fun _ => none }

/-- Witness for C8 at concrete inputs from the freshly initialised store. -/
theorem os_persist_roundtrip_witness :
    ((os_persist_get (os_persist_flush (os_persist_put persistInitState
        [Char.ofNat 97] [7, 8]).2).2.1 [Char.ofNat 97] 512).1 = OsErr.OK ∧
     (os_persist_get (os_persist_flush (os_persist_put persistInitState
        [Char.ofNat 97] [7, 8]).2).2.1 [Char.ofNat 97] 512).2.1 = [7, 8]) ∧
    ((os_persist_get (os_persist_put (os_persist_put persistInitState
        [Char.ofNat 97] [1]).2 [Char.ofNat 97] [2, 3]).2 [Char.ofNat 97] 512).1 = OsErr.OK ∧
     (os_persist_get (os_persist_put (os_persist_put persistInitState
        [Char.ofNat 97] [1]).2 [Char.ofNat 97] [2, 3]).2 [Char.ofNat 97] 512).2.1 = [2, 3]) ∧
    ((os_persist_get (os_persist_put (os_persist_flush (os_persist_put
        persistInitState [Char.ofNat 97] [1]).2).2.1 [Char.ofNat 97] [2, 3]).2 [Char.ofNat 97] 512).1 = OsErr.OK ∧
     (os_persist_get (os_persist_put (os_persist_flush (os_persist_put
        persistInitState [Char.ofNat 97] [1]).2).2.1 [Char.ofNat 97] [2, 3]).2 [Char.ofNat 97] 512).2.1 = [2, 3]) ∧
    ((os_persist_get (os_persist_flush (os_persist_put (os_persist_put
        persistInitState [Char.ofNat 97] [1]).2 [Char.ofNat 97] [2, 3]).2).2.1 [Char.ofNat 97] 512).1 = OsErr.OK ∧
     (os_persist_get (os_persist_flush (os_persist_put (os_persist_put
        persistInitState [Char.ofNat 97] [1]).2 [Char.ofNat 97] [2, 3]).2).2.1 [Char.ofNat 97] 512).2.1 = [2, 3]) :=
  os_persist_roundtrip persistInitState [Char.ofNat 97] [7, 8] [1] [2, 3] 512
    rfl (by decide) (by decide) (by decide) (by decide)
    (short_of_invalid _ (by
      intro e he
      rw [List.eq_of_mem_replicate he]
      rfl))
    (once_of_invalid _ (by
      intro e he
      rw [List.eq_of_mem_replicate he]
      rfl))
    (by decide) (by decide)

/-- C10.  `os_persist_get` with an undersized caller buffer is asymmetric:
a write-buffer hit returns `OK` with the truncated prefix copied and
`out_len` set to the full stored length, while a backing-store-only key
returns `NO_MEM` with nothing copied (and `out_len` untouched). -/
theorem os_persist_get_asymmetry (s : PersistState) (k : List Char)
    (d : List Nat) (buf_len : Nat) (hinit : s.initialized = true) :
    (getBuf s.write_buffer k = some d → buf_len < d.length →
      (os_persist_get s k buf_len).1 = OsErr.OK ∧
      (os_persist_get s k buf_len).2.1 = d.take buf_len ∧
      (os_persist_get s k buf_len).2.2.1 = some d.length) ∧
    (getBuf s.write_buffer k = none → s.store (key_to_path k) = some d →
      buf_len < d.length →
      (os_persist_get s k buf_len).1 = OsErr.NO_MEM ∧
      (os_persist_get s k buf_len).2.1 = [] ∧
      (os_persist_get s k buf_len).2.2.1 = none) := by
  constructor
  · intro hg _
    unfold os_persist_get
    rw [if_neg (by simp [hinit]), hg]
    exact ⟨rfl, rfl, rfl⟩
  · intro hg hstore hlen
    unfold os_persist_get
    rw [if_neg (by simp [hinit]), hg]
    have hread : read_file s.store k buf_len = (.NO_MEM, [], none) := by
      unfold read_file
      rw [hstore]
      show (if d.length > buf_len then (OsErr.NO_MEM, [], none)
            else (OsErr.OK, d, some d.length)) = _
      rw [if_pos (by omega)]
    rw [hread]
    exact ⟨rfl, rfl, rfl⟩

/-- A concrete state for the C10 witness: key `a` is buffered with a
3-byte value; key `b` exists only in the backing store with a 3-byte
value; the caller's buffer holds 2 bytes. -/
def asymState : PersistState :=
  { initialized := true,
    write_buffer := [{ key := [Char.ofNat 97], data := [7, 8, 9], valid := true }],
    writes_buffered := 1, total_writes := 0, total_reads := 0,
    schema_version := 0,
    store := fun p => if p = [Char.ofNat 98] then some [4, 5, 6] else none }

/-- Witness for C10: both asymmetric behaviours at concrete inputs. -/
theorem os_persist_get_asymmetry_witness :
    ((os_persist_get asymState [Char.ofNat 97] 2).1 = OsErr.OK ∧
     (os_persist_get asymState [Char.ofNat 97] 2).2.1 = List.take 2 [7, 8, 9] ∧
     (os_persist_get asymState [Char.ofNat 97] 2).2.2.1 = some 3) ∧
    ((os_persist_get asymState [Char.ofNat 98] 2).1 = OsErr.NO_MEM ∧
     (os_persist_get asymState [Char.ofNat 98] 2).2.1 = [] ∧
     (os_persist_get asymState [Char.ofNat 98] 2).2.2.1 = none) := by
  constructor
  · have h := (os_persist_get_asymmetry asymState [Char.ofNat 97] [7, 8, 9] 2 rfl).1
      (by decide) (by decide)
    simpa using h
  · have h := (os_persist_get_asymmetry asymState [Char.ofNat 98] [4, 5, 6] 2 rfl).2
      (by decide) (by decide) (by decide)
    simpa using h

/-! ## Device registry (`registry.c`, `reg_types.h`) -/

/-- `REG_MAX_NODES` from `reg_types.h`. -/
def REG_MAX_NODES : Nat := 32

/-- `REG_MAX_ENDPOINTS` from `reg_types.h`. -/
def REG_MAX_ENDPOINTS : Nat := 8

/-- `REG_MAX_CLUSTERS` from `reg_types.h`. -/
def REG_MAX_CLUSTERS : Nat := 16

/-- `REG_MAX_ATTRIBUTES` from `reg_types.h`. -/
def REG_MAX_ATTRIBUTES : Nat := 32

/-- Device lifecycle states, from `reg_types.h` `reg_state_t`. -/
inductive RegState where
  | NEW
  | INTERVIEWING
  | READY
  | STALE
  | LEFT
  deriving Repr, DecidableEq

/-- Cluster direction, from `reg_types.h` `reg_cluster_dir_t`. -/
inductive RegClusterDir where
  | SERVER
  | CLIENT
  deriving Repr, DecidableEq

/-- Power source, from `reg_types.h` `reg_power_source_t`. -/
inductive RegPowerSource where
  | UNKNOWN
  | MAINS
  | BATTERY
  | DC
  deriving Repr, DecidableEq

/-- Attribute data type tag, from `reg_types.h` `reg_attr_type_t`. -/
inductive RegAttrType where
  | UNKNOWN
  | BOOL
  | U8
  | U16
  | U32
  | S8
  | S16
  | S32
  | STRING
  | ARRAY
  deriving Repr, DecidableEq

/-- `reg_attr_value_t` (a C union).  Here each arm is an independent field:
the producer of a report fills exactly the arm matching the declared
attribute type, and the consumer reads that same arm, so union aliasing
between arms is never exercised on the paths under proof. -/
structure RegAttrValue where
  b : Bool
  u8 : Nat
  u16 : Nat
  u32 : Nat
  s8 : Int
  s16 : Int
  s32 : Int
  str : String
  deriving Repr, DecidableEq

def zeroAttrValue : RegAttrValue :=
  { b := false, u8 := 0, u16 := 0, u32 := 0, s8 := 0, s16 := 0, s32 := 0, str := "" }

/-- `reg_attribute_t` from `reg_types.h`. -/
structure RegAttribute where
  attr_id : Nat
  type : RegAttrType
  value : RegAttrValue
  last_updated : Nat
  valid : Bool
  deriving Repr, DecidableEq

/-- `reg_cluster_t` from `reg_types.h`. -/
structure RegCluster where
  cluster_id : Nat
  direction : RegClusterDir
  attributes : List RegAttribute
  attr_count : Nat
  valid : Bool
  deriving Repr, DecidableEq

/-- `reg_endpoint_t` from `reg_types.h`. -/
structure RegEndpoint where
  endpoint_id : Nat
  profile_id : Nat
  device_id : Nat
  clusters : List RegCluster
  cluster_count : Nat
  valid : Bool
  deriving Repr, DecidableEq

/-- `reg_node_t` from `reg_types.h`. -/
structure RegNode where
  ieee_addr : Nat
  nwk_addr : Nat
  state : RegState
  manufacturer : String
  model : String
  friendly_name : String
  sw_build : Nat
  lqi : Nat
  rssi : Int
  power_source : RegPowerSource
  endpoints : List RegEndpoint
  endpoint_count : Nat
  join_time : Nat
  last_seen : Nat
  interview_stage : Nat
  valid : Bool
  deriving Repr, DecidableEq

/-- The registry singleton (`registry` static in `registry.c`). -/
structure Registry where
  initialized : Bool
  nodes : List RegNode
  node_count : Nat
  deriving Repr, DecidableEq

/-- Registry lifecycle events emitted on the bus. -/
inductive RegEvent where
  | joined (ieee nwk : Nat)
  | left (ieee : Nat)
  deriving Repr, DecidableEq

/-- The node-lookup scan of `reg_find_node`: first valid node with the
address. -/
def reg_find_node_list : List RegNode → Nat → Option RegNode
  | [], _ => none
  | n :: rest, ieee =>
    if n.valid && n.ieee_addr == ieee then some n else reg_find_node_list rest ieee

/-- `reg_find_node` from `registry.c`. -/
def reg_find_node (reg : Registry) (ieee : Nat) : Option RegNode :=
  if !reg.initialized then none else reg_find_node_list reg.nodes ieee

/-- The existing-node path of `reg_add_node`: update `nwk_addr` and (via
`reg_touch_node`) `last_seen` of the first valid node with the address,
in place.  Returns the new node list and the updated node. -/
def updateNodesExisting : List RegNode → Nat → Nat → Nat →
    Option (List RegNode × RegNode)
  | [], _, _, _ => none
  | n :: rest, ieee, nwk, now =>
    if n.valid && n.ieee_addr == ieee then
      some ({ n with nwk_addr := nwk, last_seen := now } :: rest,
            { n with nwk_addr := nwk, last_seen := now })
    else (updateNodesExisting rest ieee nwk now).map (fun r => (n :: r.1, r.2))

def zeroCluster : RegCluster :=
  { cluster_id := 0, direction := .SERVER,
    attributes := List.replicate REG_MAX_ATTRIBUTES
      { attr_id := 0, type := .UNKNOWN, value := zeroAttrValue,
        last_updated := 0, valid := false },
    attr_count := 0, valid := false }

def zeroEndpoint : RegEndpoint :=
  { endpoint_id := 0, profile_id := 0, device_id := 0,
    clusters := List.replicate REG_MAX_CLUSTERS zeroCluster,
    cluster_count := 0, valid := false }

/-- The node built by the new-slot path of `reg_add_node` (`memset` to zero,
then identity, addresses, `New` state and timestamps). -/
def freshRegNode (ieee nwk now : Nat) : RegNode :=
  { ieee_addr := ieee, nwk_addr := nwk, state := .NEW,
    manufacturer := "", model := "", friendly_name := "", sw_build := 0,
    lqi := 0, rssi := 0, power_source := .UNKNOWN,
    endpoints := List.replicate REG_MAX_ENDPOINTS zeroEndpoint,
    endpoint_count := 0, join_time := now, last_seen := now,
    interview_stage := 0, valid := true }

/-- The free-slot scan of `reg_add_node`: place the fresh node in the first
invalid slot. -/
def placeFreeNode : List RegNode → RegNode → Option (List RegNode)
  | [], _ => none
  | n :: rest, fresh =>
    if !n.valid then some (fresh :: rest)
    else (placeFreeNode rest fresh).map (n :: ·)

/-- `reg_add_node` from `registry.c`.  Result: (returned node, new registry,
events emitted).  `ZB_DEVICE_JOINED` is emitted only on the new-slot path. -/
def reg_add_node (reg : Registry) (ieee nwk now : Nat) :
    Option RegNode × Registry × List RegEvent :=
  if !reg.initialized then (none, reg, [])
  else
    match updateNodesExisting reg.nodes ieee nwk now with
    | some r => (some r.2, { reg with nodes := r.1 }, [])
    | none =>
      match placeFreeNode reg.nodes (freshRegNode ieee nwk now) with
      | none => (none, reg, [])
      | some nodes' =>
        (some (freshRegNode ieee nwk now),
         { reg with nodes := nodes', node_count := reg.node_count + 1 },
         [RegEvent.joined ieee nwk])

theorem updateNodesExisting_of_find (ieee nwk now : Nat) :
    ∀ l n, reg_find_node_list l ieee = some n →
      ∃ l', updateNodesExisting l ieee nwk now
        = some (l', { n with nwk_addr := nwk, last_seen := now }) := by
  intro l
  induction l with
  | nil => intro n h; simp [reg_find_node_list] at h
  | cons a rest ih =>
    intro n h
    by_cases hc : (a.valid && a.ieee_addr == ieee) = true
    · rw [reg_find_node_list, if_pos hc] at h
      cases h
      exact ⟨_, by rw [updateNodesExisting, if_pos hc]⟩
    · rw [reg_find_node_list, if_neg hc] at h
      obtain ⟨l', hl'⟩ := ih n h
      refine ⟨a :: l', ?_⟩
      rw [updateNodesExisting, if_neg hc, hl']
      rfl

/-- C9.  Adding a node whose `eui64` is already registered returns the
existing slot with only `nwk_addr` and `last_seen` updated — state,
metadata, endpoints and every other field are those of the found node —
does not change `node_count`, and emits no `ZB_DEVICE_JOINED` event. -/
theorem reg_add_node_existing (reg : Registry) (ieee nwk now : Nat) (n : RegNode)
    (hfind : reg_find_node reg ieee = some n) :
    (reg_add_node reg ieee nwk now).1
        = some { n with nwk_addr := nwk, last_seen := now } ∧
    (reg_add_node reg ieee nwk now).2.1.node_count = reg.node_count ∧
    (reg_add_node reg ieee nwk now).2.2 = [] := by
  have hinit : reg.initialized = true := by
    by_contra hni
    rw [reg_find_node, if_pos (by simpa using hni)] at hfind
    exact Option.noConfusion hfind
  rw [reg_find_node, if_neg (by simp [hinit])] at hfind
  obtain ⟨l', hl'⟩ := updateNodesExisting_of_find ieee nwk now reg.nodes n hfind
  unfold reg_add_node
  rw [if_neg (by simp [hinit]), hl']
  exact ⟨rfl, rfl, rfl⟩

/-- A one-slot registry holding a `Ready` node with metadata, for the C9
witness. -/
def wNode : RegNode :=
  { ieee_addr := 0xAABB, nwk_addr := 0x1234, state := .READY,
    manufacturer := "ACME", model := "LAMP-1", friendly_name := "lamp",
    sw_build := 7, lqi := 200, rssi := -40, power_source := .MAINS,
    endpoints := [{ endpoint_id := 1, profile_id := 0x0104, device_id := 0x0100,
                    clusters := [], cluster_count := 0, valid := true }],
    endpoint_count := 1, join_time := 10, last_seen := 20,
    interview_stage := 5, valid := true }

def wRegistry : Registry :=
  { initialized := true, nodes := [wNode], node_count := 1 }

/-- Witness for C9: re-adding `wNode`'s address with a new `nwk` returns the
same slot with only `nwk_addr`/`last_seen` changed, keeps `node_count`, and
emits nothing. -/
theorem reg_add_node_existing_witness :
    (reg_add_node wRegistry 0xAABB 0x5678 99).1
        = some { wNode with nwk_addr := 0x5678, last_seen := 99 } ∧
    (reg_add_node wRegistry 0xAABB 0x5678 99).2.1.node_count = wRegistry.node_count ∧
    (reg_add_node wRegistry 0xAABB 0x5678 99).2.2 = [] :=
  reg_add_node_existing wRegistry 0xAABB 0x5678 99 wNode (by decide)

/-! ## Interview engine (`interview.c`)

The registry helpers `reg_set_state`, `reg_add_endpoint` and
`reg_add_cluster` operate through node pointers in C; here they become
update functions applied to the node found by address. -/

/-- `MAX_INTERVIEWS` from `interview.c`. -/
def MAX_INTERVIEWS : Nat := 4

/-- `INTERVIEW_TIMEOUT_MS` from `interview.c` (the global budget). -/
def INTERVIEW_TIMEOUT_MS : Nat := 30000

/-- `STEP_TIMEOUT_MS` from `interview.c`. -/
def STEP_TIMEOUT_MS : Nat := 5000

/-- Interview stages, from `interview.h` `interview_stage_t`. -/
inductive InterviewStage where
  | INIT
  | ACTIVE_EP
  | SIMPLE_DESC
  | BASIC_ATTR
  | BINDINGS
  | COMPLETE
  | FAILED
  deriving Repr, DecidableEq

/-- The `ctx->stage++` of the step-timeout path (an `int` increment in C;
past `FAILED` the C value would leave the enum range, which no reachable
path does). -/
def stageSucc : InterviewStage → InterviewStage
  | .INIT => .ACTIVE_EP
  | .ACTIVE_EP => .SIMPLE_DESC
  | .SIMPLE_DESC => .BASIC_ATTR
  | .BASIC_ATTR => .BINDINGS
  | .BINDINGS => .COMPLETE
  | .COMPLETE => .FAILED
  | .FAILED => .FAILED

/-- `interview_ctx_t` from `interview.c`. -/
structure InterviewCtx where
  ieee_addr : Nat
  stage : InterviewStage
  retry_count : Nat
  current_ep_index : Nat
  start_time : Nat
  step_start_time : Nat
  active : Bool
  deriving Repr, DecidableEq

/-- The interview service state (`service` static in `interview.c`). -/
structure IntvService where
  initialized : Bool
  interviews : List InterviewCtx
  active_count : Nat
  deriving Repr, DecidableEq

/-- Event emitted by the interview engine (completion marker reusing
`CAP_STATE_CHANGED`). -/
inductive IntvEvent where
  | capStateChanged (ieee : Nat)
  deriving Repr, DecidableEq

/-- `reg_set_state` from `registry.c`, as a node update (the C old-state
check only affects logging). -/
def reg_set_state_node (st : RegState) (n : RegNode) : RegNode :=
  if n.state = st then n else { n with state := st }

/-- Apply an update to the first valid node with the address (the C pattern
`reg_find_node` followed by mutation through the returned pointer). -/
def updateNodeBy : List RegNode → Nat → (RegNode → RegNode) → List RegNode
  | [], _, _ => []
  | n :: rest, ieee, f =>
    if n.valid && n.ieee_addr == ieee then f n :: rest
    else n :: updateNodeBy rest ieee f

def regUpdateNode (reg : Registry) (ieee : Nat) (f : RegNode → RegNode) : Registry :=
  { reg with nodes := updateNodeBy reg.nodes ieee f }

/-- `reg_find_endpoint` from `registry.c`. -/
def reg_find_endpoint (node : RegNode) (epid : Nat) : Option RegEndpoint :=
  node.endpoints.find? (fun ep => ep.valid && ep.endpoint_id == epid)

def placeFreeEndpoint : List RegEndpoint → RegEndpoint → Option (List RegEndpoint)
  | [], _ => none
  | ep :: rest, fresh =>
    if !ep.valid then some (fresh :: rest)
    else (placeFreeEndpoint rest fresh).map (ep :: ·)

/-- `reg_add_endpoint` from `registry.c`, as a node transformer: no change
when the endpoint exists or no slot is free. -/
def reg_add_endpoint (node : RegNode) (epid profile device : Nat) : RegNode :=
  match reg_find_endpoint node epid with
  | some _ => node
  | none =>
    match placeFreeEndpoint node.endpoints
        { endpoint_id := epid, profile_id := profile, device_id := device,
          clusters := List.replicate REG_MAX_CLUSTERS zeroCluster,
          cluster_count := 0, valid := true } with
    | none => node
    | some eps =>
      { node with endpoints := eps, endpoint_count := node.endpoint_count + 1 }

/-- `reg_find_cluster` from `registry.c`. -/
def reg_find_cluster (ep : RegEndpoint) (cid : Nat) : Option RegCluster :=
  ep.clusters.find? (fun cl => cl.valid && cl.cluster_id == cid)

def placeFreeCluster : List RegCluster → RegCluster → Option (List RegCluster)
  | [], _ => none
  | cl :: rest, fresh =>
    if !cl.valid then some (fresh :: rest)
    else (placeFreeCluster rest fresh).map (cl :: ·)

/-- `reg_add_cluster` from `registry.c`, as an endpoint transformer. -/
def reg_add_cluster (ep : RegEndpoint) (cid : Nat) (dir : RegClusterDir) :
    RegEndpoint :=
  match reg_find_cluster ep cid with
  | some _ => ep
  | none =>
    match placeFreeCluster ep.clusters
        { cluster_id := cid, direction := dir,
          attributes := List.replicate REG_MAX_ATTRIBUTES
            { attr_id := 0, type := .UNKNOWN, value := zeroAttrValue,
              last_updated := 0, valid := false },
          attr_count := 0, valid := false } with
    | none => ep
    | some cls => { ep with clusters := cls, cluster_count := ep.cluster_count + 1 }

/-- Apply an update to the first valid endpoint with the id. -/
def updateEndpointBy : List RegEndpoint → Nat → (RegEndpoint → RegEndpoint) →
    List RegEndpoint
  | [], _, _ => []
  | ep :: rest, epid, f =>
    if ep.valid && ep.endpoint_id == epid then f ep :: rest
    else ep :: updateEndpointBy rest epid f

/-- `simulate_active_endpoints` from `interview.c`: add endpoints 1 and 2
to the interviewed node (HA On/Off Light and Temperature Sensor). -/
def simulate_active_endpoints (reg : Registry) (ieee : Nat) : Registry :=
  match reg_find_node reg ieee with
  | none => reg
  | some _ =>
    regUpdateNode reg ieee (fun n =>
      reg_add_endpoint (reg_add_endpoint n 1 0x0104 0x0100) 2 0x0104 0x0302)

/-- `simulate_simple_descriptor` from `interview.c`: clusters Basic, OnOff,
LevelControl on endpoint 1; Basic, Temperature on endpoint 2. -/
def simulate_simple_descriptor (reg : Registry) (ieee : Nat) : Registry :=
  match reg_find_node reg ieee with
  | none => reg
  | some _ =>
    regUpdateNode reg ieee (fun n =>
      let eps1 := updateEndpointBy n.endpoints 1 (fun ep =>
        reg_add_cluster (reg_add_cluster (reg_add_cluster ep 0x0000 .SERVER)
          0x0006 .SERVER) 0x0008 .SERVER)
      let eps2 := updateEndpointBy eps1 2 (fun ep =>
        reg_add_cluster (reg_add_cluster ep 0x0000 .SERVER) 0x0402 .SERVER)
      { n with endpoints := eps2 })

/-- `simulate_basic_attributes` from `interview.c`: set the metadata. -/
def simulate_basic_attributes (reg : Registry) (ieee : Nat) : Registry :=
  match reg_find_node reg ieee with
  | none => reg
  | some _ =>
    regUpdateNode reg ieee (fun n =>
      { n with manufacturer := "Test Manufacturer", model := "Test Model",
               sw_build := 1, power_source := .MAINS })

/-- `advance_interview` from `interview.c`.  Result: (updated context, new
registry, whether `free_interview` ran, events emitted). -/
def advance_interview (ctx : InterviewCtx) (reg : Registry) (now : Nat) :
    InterviewCtx × Registry × Bool × List IntvEvent :=
  match reg_find_node reg ctx.ieee_addr with
  | none => ({ ctx with stage := .FAILED, active := false }, reg, true, [])
  | some _ =>
    match ctx.stage with
    | .INIT =>
      ({ ctx with stage := .ACTIVE_EP, step_start_time := now }, reg, false, [])
    | .ACTIVE_EP =>
      ({ ctx with stage := .SIMPLE_DESC, step_start_time := now },
       simulate_active_endpoints reg ctx.ieee_addr, false, [])
    | .SIMPLE_DESC =>
      ({ ctx with stage := .BASIC_ATTR, step_start_time := now },
       simulate_simple_descriptor reg ctx.ieee_addr, false, [])
    | .BASIC_ATTR =>
      ({ ctx with stage := .BINDINGS, step_start_time := now },
       simulate_basic_attributes reg ctx.ieee_addr, false, [])
    | .BINDINGS =>
      ({ ctx with stage := .COMPLETE }, reg, false, [])
    | .COMPLETE =>
      ({ ctx with active := false },
       regUpdateNode reg ctx.ieee_addr (reg_set_state_node .READY), true,
       [IntvEvent.capStateChanged ctx.ieee_addr])
    | .FAILED =>
      ({ ctx with active := false },
       regUpdateNode reg ctx.ieee_addr (reg_set_state_node .STALE), true, [])

/-- One iteration of the `interview_process` loop for a single context
slot.  The global-timeout path sets the stage to `FAILED`, frees the
context and `continue`s — it does not reach `advance_interview` (and so
never reaches the `FAILED` branch that would mark the node `Stale`).
Tick differences use `Nat` subtraction; the 32-bit tick wrap (49 days)
is outside the modelled range. -/
def processOne (ctx : InterviewCtx) (reg : Registry) (now : Nat) :
    InterviewCtx × Registry × Bool × List IntvEvent :=
  if !ctx.active then (ctx, reg, false, [])
  else if now - ctx.start_time > INTERVIEW_TIMEOUT_MS then
    ({ ctx with stage := .FAILED, active := false }, reg, true, [])
  else
    let ctx1 :=
      if now - ctx.step_start_time > STEP_TIMEOUT_MS then
        if ctx.retry_count + 1 > 3 then
          { ctx with retry_count := 0, stage := stageSucc ctx.stage,
                     step_start_time := now }
        else { ctx with retry_count := ctx.retry_count + 1, step_start_time := now }
      else ctx
    advance_interview ctx1 reg now

/-- The full slot loop of `interview_process`.  Result: (new contexts, new
registry, number of contexts freed, events). -/
def processList : List InterviewCtx → Registry → Nat →
    List InterviewCtx × Registry × Nat × List IntvEvent
  | [], reg, _ => ([], reg, 0, [])
  | c :: rest, reg, now =>
    let r1 := processOne c reg now
    let r2 := processList rest r1.2.1 now
    (r1.1 :: r2.1, r2.2.1,
     r2.2.2.1 + (if r1.2.2.1 then 1 else 0),
     r1.2.2.2 ++ r2.2.2.2)

/-- `interview_process` from `interview.c`. -/
def interview_process (svc : IntvService) (reg : Registry) (now : Nat) :
    IntvService × Registry × List IntvEvent :=
  if !svc.initialized then (svc, reg, [])
  else
    ({ svc with interviews := (processList svc.interviews reg now).1,
                active_count :=
                  svc.active_count - (processList svc.interviews reg now).2.2.1 },
     (processList svc.interviews reg now).2.1,
     (processList svc.interviews reg now).2.2.2)

/-- The node being interviewed in the C6 failing input: state
`Interviewing`. -/
def c6Node : RegNode :=
  { ieee_addr := 5, nwk_addr := 0x1234, state := .INTERVIEWING,
    manufacturer := "", model := "", friendly_name := "", sw_build := 0,
    lqi := 0, rssi := 0, power_source := .UNKNOWN,
    endpoints := [], endpoint_count := 0, join_time := 0, last_seen := 0,
    interview_stage := 0, valid := true }

def c6Registry : Registry :=
  { initialized := true, nodes := [c6Node], node_count := 1 }

/-- An interview for `c6Node` that started at tick 0. -/
def c6Ctx : InterviewCtx :=
  { ieee_addr := 5, stage := .ACTIVE_EP, retry_count := 0,
    current_ep_index := 0, start_time := 0, step_start_time := 0, active := true }

def c6Service : IntvService :=
  { initialized := true, interviews := [c6Ctx], active_count := 1 }

/-- C6, evaluated at the failing input.  At `now = 30001` (elapsed
30001 ms > `T_total` = 30000 ms) `interview_process` transitions the
interview to `Failed` and frees its context — but the registry node stays
in `Interviewing`: it is NOT set to `Stale`, because the timeout path
frees the context and `continue`s without ever executing the `FAILED`
branch of `advance_interview` (the only place that sets `Stale`). -/
theorem interview_timeout_leaves_node_state :
    (interview_process c6Service c6Registry 30001).1.interviews
        = [{ c6Ctx with stage := .FAILED, active := false }] ∧
    (interview_process c6Service c6Registry 30001).1.active_count = 0 ∧
    (reg_find_node (interview_process c6Service c6Registry 30001).2.1 5).map
        (fun n => n.state) = some RegState.INTERVIEWING ∧
    RegState.INTERVIEWING ≠ RegState.STALE := by
  refine ⟨?_, ?_, ?_, by decide⟩ <;> rfl

/-! ## Capability mapper (`capability.c`) and quirks (`quirks.c`)

C `float` is modelled as exact `Rat` (the quirk multiplier `0.1f` becomes
`1/10`); no settled statement depends on IEEE rounding.  The C value
unions become sum types; a quirk action applied to a value of another kind
is the identity here — the static table only pairs actions with
capabilities of the matching kind, so the C union-aliasing cases are never
exercised. -/

/-- Capability ids, from `capability.h` `cap_id_t`. -/
inductive CapId where
  | CAP_UNKNOWN
  | CAP_SWITCH_ON
  | CAP_LIGHT_ON
  | CAP_LIGHT_LEVEL
  | CAP_LIGHT_COLOR_TEMP
  | CAP_SENSOR_TEMPERATURE
  | CAP_SENSOR_HUMIDITY
  | CAP_SENSOR_CONTACT
  | CAP_SENSOR_MOTION
  | CAP_SENSOR_ILLUMINANCE
  | CAP_POWER_WATTS
  | CAP_ENERGY_KWH
  deriving Repr, DecidableEq

/-- Value kinds, from `capability.h` `cap_value_type_t`. -/
inductive CapValueType where
  | BOOL
  | INT
  | FLOAT
  | STRING
  deriving Repr, DecidableEq

/-- `cap_value_t` (a C union), as a sum. -/
inductive CapValue where
  | b (x : Bool)
  | i (x : Int)
  | f (x : Rat)
  | str (x : String)
  deriving Repr, DecidableEq

/-- `ZCL_LEVEL_MAX` from `capability.c`. -/
def ZCL_LEVEL_MAX : Nat := 254

/-- The `cluster_map` static of `capability.c`:
(cluster id, attribute id, capability). -/
def cluster_map : List (Nat × Nat × CapId) :=
  [(0x0006, 0x0000, .CAP_LIGHT_ON),
   (0x0008, 0x0000, .CAP_LIGHT_LEVEL),
   (0x0300, 0x0007, .CAP_LIGHT_COLOR_TEMP),
   (0x0402, 0x0000, .CAP_SENSOR_TEMPERATURE),
   (0x0405, 0x0000, .CAP_SENSOR_HUMIDITY)]

/-- The capability-resolution scan of `cap_handle_attribute_report`: first
`cluster_map` row matching (cluster, attr), else `CAP_UNKNOWN`. -/
def capResolve (cluster_id attr_id : Nat) : CapId :=
  match cluster_map.find? (fun m => m.1 == cluster_id && m.2.1 == attr_id) with
  | some m => m.2.2
  | none => .CAP_UNKNOWN

/-- The per-type conversion switch of `cap_handle_attribute_report`:
bool as-is, level `u8 * 100 / 254`, temperature `s16 / 100.0`, humidity
`u16 / 100.0`, everything else the `u32` arm as an int. -/
def convertReport (cap_id : CapId) (v : RegAttrValue) : CapValue :=
  match cap_id with
  | .CAP_LIGHT_ON => .b v.b
  | .CAP_SWITCH_ON => .b v.b
  | .CAP_LIGHT_LEVEL => .i (Int.ofNat ((v.u8 * 100) / ZCL_LEVEL_MAX))
  | .CAP_SENSOR_TEMPERATURE => .f ((v.s16 : Rat) / 100)
  | .CAP_SENSOR_HUMIDITY => .f ((v.u16 : Rat) / 100)
  | _ => .i (Int.ofNat v.u32)

/-- `cap_state_t` from `capability.h`. -/
structure CapState where
  id : CapId
  type : CapValueType
  value : CapValue
  timestamp : Nat
  valid : Bool
  deriving Repr, DecidableEq

/-- `node_cap_cache_t` from `capability.c`.  The C `caps[MAX_NODE_CAPS]`
array with its `cap_count` prefix is the list `caps` (at most 8 long). -/
structure NodeCapCache where
  node_addr : Nat
  caps : List CapState
  valid : Bool
  deriving Repr, DecidableEq

/-- The capability service state (`service` static in `capability.c`). -/
structure CapService where
  initialized : Bool
  cache : List NodeCapCache
  deriving Repr, DecidableEq

/-- `CAP_STATE_CHANGED` event payload (`emit_state_changed`). -/
structure CapEvent where
  node_addr : Nat
  cap_id : CapId
  value : CapValue
  deriving Repr, DecidableEq

/-- `find_cache` from `capability.c`. -/
def findCache (cache : List NodeCapCache) (node_addr : Nat) : Option NodeCapCache :=
  cache.find? (fun c => c.valid && c.node_addr == node_addr)

/-- The `find_cap_in_cache` scan plus the in-place update of
`cap_handle_attribute_report`: set `{value, timestamp, valid := true}` on
the first cap with this id.  `none` when the cap is absent. -/
def updateCapInList : List CapState → CapId → CapValue → Nat → Option (List CapState)
  | [], _, _, _ => none
  | c :: rest, cap_id, v, now =>
    if c.id == cap_id then
      some ({ c with value := v, timestamp := now, valid := true } :: rest)
    else (updateCapInList rest cap_id v now).map (c :: ·)

/-- The `find_cache` scan plus the per-cache update: locate the node's
cache and update the cap inside it.  `none` when the cache or the cap is
absent (`NOT_FOUND` in both C paths). -/
def capReportUpdate : List NodeCapCache → Nat → CapId → CapValue → Nat →
    Option (List NodeCapCache)
  | [], _, _, _, _ => none
  | c :: rest, node_addr, cap_id, v, now =>
    if c.valid && c.node_addr == node_addr then
      (updateCapInList c.caps cap_id v now).map (fun caps => { c with caps := caps } :: rest)
    else (capReportUpdate rest node_addr cap_id v now).map (c :: ·)

/-- `cap_handle_attribute_report` from `capability.c`.  Result: (error,
new service state, `CAP_STATE_CHANGED` events emitted).  Note that this
function never consults the quirks table. -/
def cap_handle_attribute_report (svc : CapService) (node_addr endpoint_id : Nat)
    (cluster_id attr_id : Nat) (value : RegAttrValue) (now : Nat) :
    OsErr × CapService × List CapEvent :=
  if !svc.initialized then (.INVALID_ARG, svc, [])
  else if capResolve cluster_id attr_id = .CAP_UNKNOWN then (.OK, svc, [])
  else
    match capReportUpdate svc.cache node_addr (capResolve cluster_id attr_id)
        (convertReport (capResolve cluster_id attr_id) value) now with
    | none => (.NOT_FOUND, svc, [])
    | some cache' =>
      (.OK, { svc with cache := cache' },
       [{ node_addr := node_addr, cap_id := capResolve cluster_id attr_id,
          value := convertReport (capResolve cluster_id attr_id) value }])

/-- `cap_get_state` from `capability.c` (the `OS_ERR_NOT_FOUND` paths are
`none`). -/
def cap_get_state (svc : CapService) (node_addr : Nat) (cap_id : CapId) :
    Option CapState :=
  if !svc.initialized then none
  else
    match findCache svc.cache node_addr with
    | none => none
    | some c => c.caps.find? (fun st => st.id == cap_id)

/-- A quirk action, from `quirks.h` (the C struct-with-union of
`quirk_action_t`). -/
inductive QuirkAction where
  | clamp (target : CapId) (lo hi : Int)
  | invert (target : CapId) (enabled : Bool)
  | scale (target : CapId) (multiplier offset : Rat)
  deriving Repr, DecidableEq

/-- `quirk_entry_t` from `quirks.h`. -/
structure QuirkEntry where
  manufacturer : String
  model : String
  prefix_match : Bool
  actions : List QuirkAction
  deriving Repr, DecidableEq

/-- The built-in `quirks_table` static of `quirks.c`.  The C literal `0.1f`
is the exact rational `1/10` here. -/
def quirks_table : List QuirkEntry :=
  [{ manufacturer := "DUMMY", model := "DUMMY-LIGHT-1", prefix_match := false,
     actions := [.clamp .CAP_LIGHT_LEVEL 1 100] },
   { manufacturer := "IKEA of Sweden", model := "TRADFRI bulb", prefix_match := true,
     actions := [.clamp .CAP_LIGHT_LEVEL 1 100] },
   { manufacturer := "LUMI", model := "lumi.sensor_magnet", prefix_match := true,
     actions := [.invert .CAP_SENSOR_CONTACT true] },
   { manufacturer := "_TZE200", model := "TS0601", prefix_match := true,
     actions := [.scale .CAP_SENSOR_TEMPERATURE (1 / 10) 0] }]

/-- `quirks_find` from `quirks.c`: exact manufacturer match plus exact or
prefix model match; first hit wins. -/
def quirks_find (manufacturer model : String) : Option QuirkEntry :=
  quirks_table.find? (fun e =>
    e.manufacturer == manufacturer &&
    (if e.prefix_match then e.model.data.isPrefixOf model.data
     else e.model == model))

/-- One action application of `quirks_apply_value`: actions target a
specific capability and act on the value arm of their kind. -/
def applyQuirkAction (cap_id : CapId) (v : CapValue) : QuirkAction → CapValue
  | .clamp target lo hi =>
    if target = cap_id then
      match v with
      | .i x => .i (if x < lo then lo else if x > hi then hi else x)
      | _ => v
    else v
  | .invert target enabled =>
    if target = cap_id && enabled then
      match v with
      | .b x => .b (!x)
      | _ => v
    else v
  | .scale target multiplier offset =>
    if target = cap_id then
      match v with
      | .f x => .f (x * multiplier + offset)
      | _ => v
    else v

/-- `quirks_apply_value` from `quirks.c`: find the entry, apply its
matching actions in declaration order. -/
def quirks_apply_value (manufacturer model : String) (cap_id : CapId)
    (v : CapValue) : CapValue :=
  match quirks_find manufacturer model with
  | none => v
  | some entry => entry.actions.foldl (applyQuirkAction cap_id) v

/-- The C2 claim's expected stored value, following the spec's words:
the per-type conversion with the matching quirk actions then applied. -/
def specReportValue (manufacturer model : String) (cap_id : CapId)
    (v : RegAttrValue) : CapValue :=
  quirks_apply_value manufacturer model cap_id (convertReport cap_id v)

/-- A cached but not-yet-valued `light.level` capability. -/
def c2LevelCap : CapState :=
  { id := .CAP_LIGHT_LEVEL, type := .INT, value := .i 0, timestamp := 0, valid := false }

/-- Capability service holding a cache for node 7 (a device whose registry
metadata is `manufacturer="DUMMY", model="DUMMY-LIGHT-1"`, matching the
first quirks-table entry). -/
def c2Svc : CapService :=
  { initialized := true,
    cache := [{ node_addr := 7, caps := [c2LevelCap], valid := true }] }

/-- C2, counterexample.  A LevelControl report with raw `u8 = 0` for a
node matching the `DUMMY`/`DUMMY-LIGHT-1` quirk: the code stores the bare
conversion `0 * 100 / 254 = 0`, while conversion-then-quirk (the claim)
gives `1` (the quirk clamps `light.level` to `[1, 100]`).
`cap_handle_attribute_report` never calls `quirks_apply_value`, so the
claimed post-quirk value is wrong whenever a quirk would change it. -/
theorem cap_report_quirks_counterexample :
    (cap_get_state (cap_handle_attribute_report c2Svc 7 1 0x0008 0x0000
        zeroAttrValue 42).2.1 7 .CAP_LIGHT_LEVEL).map (fun st => st.value)
      = some (CapValue.i 0) ∧
    specReportValue "DUMMY" "DUMMY-LIGHT-1" .CAP_LIGHT_LEVEL zeroAttrValue
      = CapValue.i 1 ∧
    CapValue.i 0 ≠ CapValue.i 1 := by decide

theorem updateCapInList_find (cap_id : CapId) (v : CapValue) (now : Nat) :
    ∀ caps caps', updateCapInList caps cap_id v now = some caps' →
      (caps'.find? (fun st => st.id == cap_id)).map
          (fun st => (st.value, st.timestamp, st.valid)) = some (v, now, true) := by
  intro caps
  induction caps with
  | nil => intro caps' h; simp [updateCapInList] at h
  | cons c rest ih =>
    intro caps' h
    by_cases hc : (c.id == cap_id) = true
    · rw [updateCapInList, if_pos hc] at h
      cases h
      rw [List.find?_cons_of_pos _ (by simpa using hc)]
      rfl
    · rw [updateCapInList, if_neg hc] at h
      obtain ⟨b, hb, rfl⟩ := Option.map_eq_some'.mp h
      rw [List.find?_cons_of_neg _ (by simpa using hc)]
      exact ih b hb

theorem capReportUpdate_get (node_addr : Nat) (cap_id : CapId) (v : CapValue)
    (now : Nat) :
    ∀ cache cache', capReportUpdate cache node_addr cap_id v now = some cache' →
      ∃ c, findCache cache' node_addr = some c ∧
        (c.caps.find? (fun st => st.id == cap_id)).map
            (fun st => (st.value, st.timestamp, st.valid)) = some (v, now, true) := by
  intro cache
  induction cache with
  | nil => intro cache' h; simp [capReportUpdate] at h
  | cons c rest ih =>
    intro cache' h
    by_cases hc : (c.valid && c.node_addr == node_addr) = true
    · rw [capReportUpdate, if_pos hc] at h
      obtain ⟨caps', hcaps, rfl⟩ := Option.map_eq_some'.mp h
      refine ⟨{ c with caps := caps' }, ?_,
              updateCapInList_find cap_id v now c.caps caps' hcaps⟩
      unfold findCache
      rw [List.find?_cons_of_pos _ (by simpa using hc)]
    · rw [capReportUpdate, if_neg hc] at h
      obtain ⟨b, hb, rfl⟩ := Option.map_eq_some'.mp h
      obtain ⟨cc, hfind, hmapv⟩ := ih b hb
      refine ⟨cc, ?_, hmapv⟩
      unfold findCache at hfind ⊢
      rw [List.find?_cons_of_neg _ (by simpa using hc)]
      exact hfind

/-- C2, amended.  For a mapped (cluster, attr) report on a node with a
cached entry for the mapped capability, the handler returns `OK`, the
stored state carries exactly the per-type conversion of the raw value
(bool as-is, `u8*100/254`, `s16/100`, `u16/100`) with NO quirk applied,
`valid = true` and `timestamp = now`, and one `CAP_STATE_CHANGED` event is
emitted with that same converted (pre-quirk) value. -/
theorem cap_handle_report_conversion (svc : CapService)
    (node_addr endpoint_id cluster_id attr_id : Nat) (value : RegAttrValue)
    (now : Nat)
    (hinit : svc.initialized = true)
    (hmapd : capResolve cluster_id attr_id ≠ .CAP_UNKNOWN)
    (hupd : (capReportUpdate svc.cache node_addr (capResolve cluster_id attr_id)
        (convertReport (capResolve cluster_id attr_id) value) now).isSome = true) :
    (cap_handle_attribute_report svc node_addr endpoint_id cluster_id attr_id
        value now).1 = OsErr.OK ∧
    ((cap_get_state (cap_handle_attribute_report svc node_addr endpoint_id
        cluster_id attr_id value now).2.1 node_addr
        (capResolve cluster_id attr_id)).map
          (fun st => (st.value, st.timestamp, st.valid)))
      = some (convertReport (capResolve cluster_id attr_id) value, now, true) ∧
    (cap_handle_attribute_report svc node_addr endpoint_id cluster_id attr_id
        value now).2.2
      = [{ node_addr := node_addr, cap_id := capResolve cluster_id attr_id,
           value := convertReport (capResolve cluster_id attr_id) value }] := by
  obtain ⟨cache', hch⟩ := Option.isSome_iff_exists.mp hupd
  unfold cap_handle_attribute_report
  rw [if_neg (by simp [hinit]), if_neg hmapd, hch]
  obtain ⟨c, hfind, hmapv⟩ := capReportUpdate_get node_addr _ _ now svc.cache cache' hch
  refine ⟨rfl, ?_, rfl⟩
  unfold cap_get_state
  rw [if_neg (by simp [hinit])]
  show (match findCache cache' node_addr with
        | none => none
        | some c => c.caps.find?
            (fun st : CapState => st.id == capResolve cluster_id attr_id)).map
          (fun st : CapState => (st.value, st.timestamp, st.valid)) = _
  rw [hfind]
  exact hmapv

/-- A cached but not-yet-valued `light.on` capability for the C2 witness. -/
def c2OnCap : CapState :=
  { id := .CAP_LIGHT_ON, type := .BOOL, value := .b false, timestamp := 0, valid := false }

def c2WSvc : CapService :=
  { initialized := true,
    cache := [{ node_addr := 9, caps := [c2OnCap], valid := true }] }

def c2WRaw : RegAttrValue := { zeroAttrValue with b := true }

/-- Witness for the amended C2 at a concrete On/Off report. -/
theorem cap_handle_report_conversion_witness :
    (cap_handle_attribute_report c2WSvc 9 1 0x0006 0x0000 c2WRaw 5).1 = OsErr.OK ∧
    ((cap_get_state (cap_handle_attribute_report c2WSvc 9 1 0x0006 0x0000
        c2WRaw 5).2.1 9 (capResolve 0x0006 0x0000)).map
          (fun st => (st.value, st.timestamp, st.valid)))
      = some (convertReport (capResolve 0x0006 0x0000) c2WRaw, 5, true) ∧
    (cap_handle_attribute_report c2WSvc 9 1 0x0006 0x0000 c2WRaw 5).2.2
      = [{ node_addr := 9, cap_id := capResolve 0x0006 0x0000,
           value := convertReport (capResolve 0x0006 0x0000) c2WRaw }] :=
  cap_handle_report_conversion c2WSvc 9 1 0x0006 0x0000 c2WRaw 5 rfl
    (by decide) (by decide)

/-! ## Zigbee adapter: address cache of `zb_real.c` (claim C5) -/

/-- `ZB_MAX_DEVICES` from `zb_real.c`. -/
def ZB_MAX_DEVICES : Nat := 64

/-- `zb_nwk_entry_t` from `zb_real.c` (the variant with `last_seen_ms`). -/
structure ZbNwkEntry where
  eui64 : Nat
  nwk_addr : Nat
  last_seen_ms : Nat
  deriving Repr, DecidableEq

/-- The existing-entry scan of `nwk_cache_insert`: update `nwk_addr` and
`last_seen_ms` of the entry with this `eui64`, in place. -/
def nwkInsertExisting : List ZbNwkEntry → Nat → Nat → Nat →
    Option (List ZbNwkEntry × ZbNwkEntry)
  | [], _, _, _ => none
  | e :: rest, eui64, nwk_addr, now =>
    if e.eui64 == eui64 then
      some ({ e with nwk_addr := nwk_addr, last_seen_ms := now } :: rest,
            { e with nwk_addr := nwk_addr, last_seen_ms := now })
    else (nwkInsertExisting rest eui64 nwk_addr now).map (fun r => (e :: r.1, r.2))

/-- `nwk_cache_insert` from `zb_real.c` (lines 114-137).  The cache list is
the live prefix `s_nwk_cache[0 .. s_nwk_count)`.  On a full table with a
new `eui64` the function logs a warning and returns NULL — there is no
eviction.  `now` is `xTaskGetTickCount() * portTICK_PERIOD_MS`.  Result:
(entry returned, new cache). -/
def nwk_cache_insert (cache : List ZbNwkEntry) (eui64 nwk_addr now : Nat) :
    Option ZbNwkEntry × List ZbNwkEntry :=
  match nwkInsertExisting cache eui64 nwk_addr now with
  | some r => (some r.2, r.1)
  | none =>
    if cache.length ≥ ZB_MAX_DEVICES then (none, cache)
    else
      (some { eui64 := eui64, nwk_addr := nwk_addr, last_seen_ms := now },
       cache ++ [{ eui64 := eui64, nwk_addr := nwk_addr, last_seen_ms := now }])

/-- A full 64-entry cache with `eui64 = i`, oldest entry at `last_seen_ms
= 1`. -/
def fullNwkCache : List ZbNwkEntry :=
  (List.range ZB_MAX_DEVICES).map
    (fun i => { eui64 := i, nwk_addr := i, last_seen_ms := i + 1 })

/-- C5, counterexample.  Inserting a new `eui64 = 100` into the full
64-entry cache fails: the result is NULL (`none`), the cache is unchanged,
the new pair is absent, and in particular the oldest entry (`last_seen_ms
= 1`) is still there — nothing was evicted. -/
theorem nwk_cache_insert_full_counterexample :
    (nwk_cache_insert fullNwkCache 100 0x4321 999).1 = none ∧
    (nwk_cache_insert fullNwkCache 100 0x4321 999).2 = fullNwkCache ∧
    (¬ ∃ e ∈ (nwk_cache_insert fullNwkCache 100 0x4321 999).2, e.eui64 = 100) ∧
    (∃ e ∈ (nwk_cache_insert fullNwkCache 100 0x4321 999).2,
        e.last_seen_ms = 1) := by decide

theorem nwkInsertExisting_of_find (eui64 nwk_addr now : Nat) :
    ∀ cache e, cache.find? (fun x => x.eui64 == eui64) = some e →
      ∃ l', nwkInsertExisting cache eui64 nwk_addr now
        = some (l', { e with nwk_addr := nwk_addr, last_seen_ms := now }) := by
  intro cache
  induction cache with
  | nil => intro e h; simp at h
  | cons a rest ih =>
    intro e h
    by_cases hc : (a.eui64 == eui64) = true
    · rw [List.find?_cons_of_pos _ (by simpa using hc)] at h
      cases h
      exact ⟨_, by rw [nwkInsertExisting, if_pos hc]⟩
    · rw [List.find?_cons_of_neg _ (by simpa using hc)] at h
      obtain ⟨l', hl'⟩ := ih e h
      refine ⟨a :: l', ?_⟩
      rw [nwkInsertExisting, if_neg hc, hl']
      rfl

theorem nwkInsertExisting_none_of_find_none (eui64 nwk_addr now : Nat) :
    ∀ cache, cache.find? (fun x => x.eui64 == eui64) = none →
      nwkInsertExisting cache eui64 nwk_addr now = none := by
  intro cache
  induction cache with
  | nil => intro _; rfl
  | cons a rest ih =>
    intro h
    by_cases hc : (a.eui64 == eui64) = true
    · rw [List.find?_cons_of_pos _ (by simpa using hc)] at h
      exact Option.noConfusion h
    · rw [List.find?_cons_of_neg _ (by simpa using hc)] at h
      rw [nwkInsertExisting, if_neg hc, ih h]
      rfl

/-- C5, amended.  (1) An insert whose `eui64` is already cached always
overwrites that entry in place (`nwk_addr` and `last_seen_ms` updated,
everything else and the cache size unchanged).  (2) An insert with a new
`eui64` while the table holds `ZB_MAX_DEVICES` entries FAILS: it returns
NULL and leaves the cache untouched — no entry is evicted.  (3) With room
available, a new `eui64` is appended. -/
theorem nwk_cache_insert_behaviour (cache : List ZbNwkEntry)
    (eui64 nwk_addr now : Nat) :
    (∀ e, cache.find? (fun x => x.eui64 == eui64) = some e →
      (nwk_cache_insert cache eui64 nwk_addr now).1
          = some { e with nwk_addr := nwk_addr, last_seen_ms := now } ∧
      (nwk_cache_insert cache eui64 nwk_addr now).2.length = cache.length) ∧
    (cache.find? (fun x => x.eui64 == eui64) = none →
      cache.length ≥ ZB_MAX_DEVICES →
      (nwk_cache_insert cache eui64 nwk_addr now).1 = none ∧
      (nwk_cache_insert cache eui64 nwk_addr now).2 = cache) ∧
    (cache.find? (fun x => x.eui64 == eui64) = none →
      cache.length < ZB_MAX_DEVICES →
      (nwk_cache_insert cache eui64 nwk_addr now).1
          = some { eui64 := eui64, nwk_addr := nwk_addr, last_seen_ms := now } ∧
      (nwk_cache_insert cache eui64 nwk_addr now).2
          = cache ++ [{ eui64 := eui64, nwk_addr := nwk_addr,
                        last_seen_ms := now }]) := by
  refine ⟨?_, ?_, ?_⟩
  · intro e hfind
    obtain ⟨l', hl'⟩ := nwkInsertExisting_of_find eui64 nwk_addr now cache e hfind
    unfold nwk_cache_insert
    rw [hl']
    refine ⟨rfl, ?_⟩
    show l'.length = cache.length
    clear hfind
    induction cache generalizing l' with
    | nil => simp [nwkInsertExisting] at hl'
    | cons a rest ih =>
      by_cases hc : (a.eui64 == eui64) = true
      · rw [nwkInsertExisting, if_pos hc] at hl'
        obtain ⟨h1, _⟩ := Prod.mk.injEq .. ▸ Option.some.inj hl'
        subst h1
        simp
      · rw [nwkInsertExisting, if_neg hc] at hl'
        obtain ⟨r, hr, hcons⟩ := Option.map_eq_some'.mp hl'
        obtain ⟨h1, h2⟩ := Prod.mk.injEq .. ▸ hcons
        subst h1
        simpa using ih r.1 (by rw [hr, ← h2])
  · intro hfind hfull
    unfold nwk_cache_insert
    rw [nwkInsertExisting_none_of_find_none eui64 nwk_addr now cache hfind,
        if_pos hfull]
    exact ⟨rfl, rfl⟩
  · intro hfind hroom
    unfold nwk_cache_insert
    rw [nwkInsertExisting_none_of_find_none eui64 nwk_addr now cache hfind,
        if_neg (by omega)]
    exact ⟨rfl, rfl⟩

/-- Witness for the amended C5: overwrite-in-place, full-table failure and
append-with-room, each at a concrete cache. -/
theorem nwk_cache_insert_behaviour_witness :
    ((nwk_cache_insert [{ eui64 := 3, nwk_addr := 1, last_seen_ms := 5 }] 3 9 77).1
        = some { eui64 := 3, nwk_addr := 9, last_seen_ms := 77 } ∧
     (nwk_cache_insert [{ eui64 := 3, nwk_addr := 1, last_seen_ms := 5 }] 3 9 77).2.length
        = 1) ∧
    ((nwk_cache_insert fullNwkCache 100 0x4321 999).1 = none ∧
     (nwk_cache_insert fullNwkCache 100 0x4321 999).2 = fullNwkCache) ∧
    ((nwk_cache_insert [{ eui64 := 3, nwk_addr := 1, last_seen_ms := 5 }] 4 2 88).1
        = some { eui64 := 4, nwk_addr := 2, last_seen_ms := 88 } ∧
     (nwk_cache_insert [{ eui64 := 3, nwk_addr := 1, last_seen_ms := 5 }] 4 2 88).2
        = [{ eui64 := 3, nwk_addr := 1, last_seen_ms := 5 },
           { eui64 := 4, nwk_addr := 2, last_seen_ms := 88 }]) :=
  ⟨(nwk_cache_insert_behaviour [{ eui64 := 3, nwk_addr := 1, last_seen_ms := 5 }]
      3 9 77).1 { eui64 := 3, nwk_addr := 1, last_seen_ms := 5 } (by decide),
   (nwk_cache_insert_behaviour fullNwkCache 100 0x4321 999).2.1
      (by decide) (by decide),
   (nwk_cache_insert_behaviour [{ eui64 := 3, nwk_addr := 1, last_seen_ms := 5 }]
      4 2 88).2.2 (by decide) (by decide)⟩

/-! ## Zigbee adapter: commands and correlation (`zb_cmd.c`,
`zb_callback.c`, `zb_real_internal.h`)

`zb_real_internal.h` declares the pending-command / address-cache helpers
of this adapter variant, and `zb_cmd.c` / `zb_callback.c` use them, but
the translation unit implementing them is absent from `src/` (the
`zb_real.c` present implements the older `zb_internal.h` surface instead).
The helpers below marked `Modelled from the spec:` reconstruct the missing
code from the spec's correlation-and-timeout contract (spec §4.4), using
the field layout of `zb_real_internal.h`. -/

/-- `ZB_MAX_PENDING` from `zb_real_internal.h`. -/
def ZB_MAX_PENDING : Nat := 16

/-- `ZB_CMD_TIMEOUT_MS` (`T_cmd`) from `zb_real_internal.h`. -/
def ZB_CMD_TIMEOUT_MS : Nat := 10000

/-- `zb_state_t` from `zb_real_internal.h`. -/
inductive ZbAdapterState where
  | UNINITIALIZED
  | INITIALIZING
  | READY
  | ERROR
  deriving Repr, DecidableEq

/-- `zb_nwk_entry_t` from `zb_real_internal.h` (the variant with a `valid`
flag). -/
structure ZbNwkEntryRI where
  eui64 : Nat
  nwk_addr : Nat
  valid : Bool
  deriving Repr, DecidableEq

/-- Modelled from the spec: `nwk_cache_find` is declared in
`zb_real_internal.h` but implemented only in the missing translation unit.
Per the spec's address cache (§4.4), lookup is by `eui64` over the valid
entries. -/
def nwk_cache_find (cache : List ZbNwkEntryRI) (eui64 : Nat) :
    Option ZbNwkEntryRI :=
  cache.find? (fun e => e.valid && e.eui64 == eui64)

/-- `zb_pending_cmd_t` from `zb_real_internal.h`. -/
structure ZbPendingCmd where
  tsn : Nat
  corr_id : Nat
  cluster_id : Nat
  cmd_id : Nat
  timestamp_ms : Nat
  in_use : Bool
  deriving Repr, DecidableEq

/-- Modelled from the spec: `pending_alloc` (declared in
`zb_real_internal.h`, implementation missing from `src/`) claims the first
free slot of the `ZB_MAX_PENDING` table, stamping it with the correlation
id, cluster/command ids and the submission time; combined here with the
`slot->tsn = tsn` write that `zb_cmd.c` performs right after the stack
call returns the TSN (no other modelled operation can intervene). -/
def allocPendingWithTsn : List ZbPendingCmd → Nat → Nat → Nat → Nat → Nat →
    Option (List ZbPendingCmd)
  | [], _, _, _, _, _ => none
  | p :: rest, corr_id, cluster_id, cmd_id, now, tsn =>
    if !p.in_use then
      some ({ tsn := tsn, corr_id := corr_id, cluster_id := cluster_id,
              cmd_id := cmd_id, timestamp_ms := now, in_use := true } :: rest)
    else (allocPendingWithTsn rest corr_id cluster_id cmd_id now tsn).map (p :: ·)

/-- The fields of `esp_zb_zcl_move_to_level_cmd_t` that `zb_send_level`
fills (destination, level, transition time as handed to the stack). -/
structure ZclMoveToLevelCmd where
  dst_endpoint : Nat
  dst_addr_short : Nat
  level : Nat
  transition_time : Nat
  deriving Repr, DecidableEq

/-- `zb_send_level` from `zb_cmd.c` (lines 40-65).  The stack request
`esp_zb_zcl_level_move_to_level_cmd_req` is abstracted as returning `tsn`.
Result: (error, command submitted to the stack if any, new pending table).
Note `.level = level` and `.transition_time = transition_ds`: both pass
through unchanged. -/
def zb_send_level (state : ZbAdapterState) (cache : List ZbNwkEntryRI)
    (pending : List ZbPendingCmd)
    (node_id endpoint level transition_ds corr_id now tsn : Nat) :
    OsErr × Option ZclMoveToLevelCmd × List ZbPendingCmd :=
  if state ≠ .READY then (.NOT_READY, none, pending)
  else
    match nwk_cache_find cache node_id with
    | none => (.NOT_FOUND, none, pending)
    | some entry =>
      if corr_id ≠ 0 then
        match allocPendingWithTsn pending corr_id 0x0008 0 now tsn with
        | none => (.NO_MEM, none, pending)
        | some pending' =>
          (.OK, some { dst_endpoint := endpoint, dst_addr_short := entry.nwk_addr,
                       level := level, transition_time := transition_ds }, pending')
      else
        (.OK, some { dst_endpoint := endpoint, dst_addr_short := entry.nwk_addr,
                     level := level, transition_time := transition_ds }, pending)

/-- The scaling the C4 claim (and spec §4.4) prescribes for the level:
`(pct*254 + 50)/100`. -/
def levelScaleSpec (pct : Nat) : Nat := (pct * 254 + 50) / 100

def c4Cache : List ZbNwkEntryRI := [{ eui64 := 2, nwk_addr := 0x1234, valid := true }]

def c4Pending : List ZbPendingCmd :=
  List.replicate ZB_MAX_PENDING
    { tsn := 0, corr_id := 0, cluster_id := 0, cmd_id := 0, timestamp_ms := 0,
      in_use := false }

/-- C4, counterexample.  `zb_send_level` called with percentage 50 and
transition 500 ms submits level 50 and transition 500 to the stack — not
the claimed `(50*254+50)/100 = 127` and `500/100 = 5`.  No scaling is
performed anywhere in the send path (nor in `zba_send_level` of
`zb_fake.c`, which merely validates `pct ≤ 100`). -/
theorem zb_send_level_no_scaling_counterexample :
    (zb_send_level .READY c4Cache c4Pending 2 1 50 500 5 0 9).2.1
      = some { dst_endpoint := 1, dst_addr_short := 0x1234, level := 50,
               transition_time := 500 } ∧
    levelScaleSpec 50 = 127 ∧ (50 : Nat) ≠ 127 ∧ (500 : Nat) ≠ 500 / 100 := by
  decide

/-- C4, amended.  Whenever `zb_send_level` reaches the stack (adapter
`Ready`, address resolved, pending slot available when `corr_id ≠ 0`), the
level and the transition value are submitted to the stack UNCHANGED; any
percentage-to-0..254 scaling and ms-to-deciseconds conversion is the
caller's responsibility (the parameter is even named `transition_ds`). -/
theorem zb_send_level_passthrough (state : ZbAdapterState)
    (cache : List ZbNwkEntryRI) (pending : List ZbPendingCmd)
    (node_id endpoint level transition_ds corr_id now tsn : Nat)
    (entry : ZbNwkEntryRI)
    (hready : state = .READY)
    (hfind : nwk_cache_find cache node_id = some entry)
    (halloc : corr_id = 0 ∨
      (allocPendingWithTsn pending corr_id 0x0008 0 now tsn).isSome = true) :
    (zb_send_level state cache pending node_id endpoint level transition_ds
        corr_id now tsn).1 = OsErr.OK ∧
    (zb_send_level state cache pending node_id endpoint level transition_ds
        corr_id now tsn).2.1
      = some { dst_endpoint := endpoint, dst_addr_short := entry.nwk_addr,
               level := level, transition_time := transition_ds } := by
  subst hready
  unfold zb_send_level
  rw [if_neg (by simp), hfind]
  rcases halloc with hc0 | hsome
  · subst hc0
    simp
  · obtain ⟨pending', hp⟩ := Option.isSome_iff_exists.mp hsome
    by_cases hcz : corr_id = 0
    · subst hcz
      simp
    · simp [hcz, hp]

/-- Witness for the amended C4 at a concrete call. -/
theorem zb_send_level_passthrough_witness :
    (zb_send_level .READY c4Cache c4Pending 2 1 75 300 6 0 9).1 = OsErr.OK ∧
    (zb_send_level .READY c4Cache c4Pending 2 1 75 300 6 0 9).2.1
      = some { dst_endpoint := 1, dst_addr_short := 0x1234, level := 75,
               transition_time := 300 } :=
  zb_send_level_passthrough .READY c4Cache c4Pending 2 1 75 300 6 0 9
    { eui64 := 2, nwk_addr := 0x1234, valid := true } rfl (by decide)
    (Or.inr (by decide))

/-! ## Zigbee adapter: correlation tracking and timeout (claim C1)

The correlation contract runs over three operations: command submission
(the `pending_alloc` + stack call + `slot->tsn = tsn` pattern shared by
every `zb_send_*` in `zb_cmd.c`), the stack's send-status callback
(`zb_cmd_send_status_cb` in `zb_callback.c`), and the periodic sweeper
(`pending_purge_timeouts`, declared in `zb_real_internal.h`, modelled from
the spec because its translation unit is absent from `src/`).  Each
operation is atomic in this model; tick differences use `Nat`
subtraction (the 32-bit wrap at 49 days is outside the modelled range). -/

/-- The `ZB_CMD_CONFIRM` / `ZB_CMD_ERROR` event payloads emitted by the
correlation machinery, keyed by correlation id. -/
inductive ZbCmdEvent where
  | confirm (corr_id status : Nat)
  | error (corr_id err : Nat)
  deriving Repr, DecidableEq

def eventCorr : ZbCmdEvent → Nat
  | .confirm c _ => c
  | .error c _ => c

/-- Modelled from the spec: the error marker of the sweeper's
`ZB_CMD_ERROR{corr_id, err=TIMEOUT}` (the magnitude of `OS_ERR_TIMEOUT`). -/
def ZB_ERR_TIMEOUT_MARKER : Nat := 3

/-- The correlation-tracker state: the `s_pending_cmds[ZB_MAX_PENDING]`
table and the `ZB_CMD_*` events emitted so far (in emission order). -/
structure ZbCorrState where
  pending : List ZbPendingCmd
  events : List ZbCmdEvent
  deriving Repr, DecidableEq

def zbInitState : ZbCorrState :=
  { pending := List.replicate ZB_MAX_PENDING
      { tsn := 0, corr_id := 0, cluster_id := 0, cmd_id := 0,
        timestamp_ms := 0, in_use := false },
    events := [] }

/-- The `pending_find_by_tsn` scan plus the `pending_free` of
`zb_cmd_send_status_cb`: free the first in-use slot with this TSN and
return it. -/
def sendStatusPending : List ZbPendingCmd → Nat → List ZbPendingCmd × Option ZbPendingCmd
  | [], _ => ([], none)
  | p :: rest, tsn =>
    if p.in_use && p.tsn == tsn then ({ p with in_use := false } :: rest, some p)
    else (p :: (sendStatusPending rest tsn).1, (sendStatusPending rest tsn).2)

/-- `zb_cmd_send_status_cb` from `zb_callback.c`: resolve the slot by TSN;
no slot — do nothing; otherwise emit exactly one `ZB_CMD_CONFIRM` (status
`ESP_OK` = 0) or `ZB_CMD_ERROR` with the slot's correlation id, and free
the slot. -/
def zb_cmd_send_status_cb (s : ZbCorrState) (tsn status : Nat) : ZbCorrState :=
  match (sendStatusPending s.pending tsn).2 with
  | none => s
  | some slot =>
    { pending := (sendStatusPending s.pending tsn).1,
      events := s.events ++
        [if status = 0 then ZbCmdEvent.confirm slot.corr_id 0
         else ZbCmdEvent.error slot.corr_id status] }

/-- Modelled from the spec: `pending_purge_timeouts` (declared in
`zb_real_internal.h`; implementation missing from `src/`).  Spec §4.4: "A
periodic sweeper scans the table; any slot older than `T_cmd` emits
`ZB_CMD_ERROR{corr_id, err=TIMEOUT}` and is freed." -/
def purgePending (now : Nat) : List ZbPendingCmd → List ZbPendingCmd × List ZbCmdEvent
  | [] => ([], [])
  | p :: rest =>
    if p.in_use = true ∧ ZB_CMD_TIMEOUT_MS < now - p.timestamp_ms then
      ({ p with in_use := false } :: (purgePending now rest).1,
       ZbCmdEvent.error p.corr_id ZB_ERR_TIMEOUT_MARKER :: (purgePending now rest).2)
    else (p :: (purgePending now rest).1, (purgePending now rest).2)

def pending_purge_timeouts (s : ZbCorrState) (now : Nat) : ZbCorrState :=
  { pending := (purgePending now s.pending).1,
    events := s.events ++ (purgePending now s.pending).2 }

/-- A command submission, the pattern shared by every `zb_send_*` of
`zb_cmd.c`: with `corr_id = 0` no slot is allocated and nothing will ever
be emitted; otherwise a slot is claimed (or the call fails with `NoMem`,
submitting nothing) and the stack's TSN is recorded in it. -/
def zb_submit_cmd (s : ZbCorrState) (corr_id cluster_id cmd_id now tsn : Nat) :
    OsErr × ZbCorrState :=
  if corr_id = 0 then (.OK, s)
  else
    match allocPendingWithTsn s.pending corr_id cluster_id cmd_id now tsn with
    | none => (.NO_MEM, s)
    | some pending' => (.OK, { s with pending := pending' })

/-- One operation of the correlation machinery. -/
inductive ZbOp where
  | submit (corr_id cluster_id cmd_id now tsn : Nat)
  | sendStatus (tsn status : Nat)
  | purge (now : Nat)
  deriving Repr, DecidableEq

def zbStep (s : ZbCorrState) : ZbOp → ZbCorrState
  | .submit c cl cm now tsn => (zb_submit_cmd s c cl cm now tsn).2
  | .sendStatus tsn status => zb_cmd_send_status_cb s tsn status
  | .purge now => pending_purge_timeouts s now

def zbRun (s : ZbCorrState) (ops : List ZbOp) : ZbCorrState := ops.foldl zbStep s

/-- Number of emitted events carrying correlation id `c`. -/
def eventCount (c : Nat) (evs : List ZbCmdEvent) : Nat :=
  (evs.filter (fun e => eventCorr e == c)).length

/-- Number of in-use pending slots carrying correlation id `c`. -/
def pendCount (c : Nat) (l : List ZbPendingCmd) : Nat :=
  (l.filter (fun p => p.in_use && p.corr_id == c)).length

/-- Every in-use slot with correlation id `c` was stamped at the
submission time `t0` (correlation ids are never reused — spec
invariant 6 — so only the one submission can have written `c`). -/
def pendTimeOK (c t0 : Nat) (l : List ZbPendingCmd) : Prop :=
  ∀ p ∈ l, p.in_use = true → p.corr_id = c → p.timestamp_ms = t0

/-- The correlation invariant: events emitted for `c` plus live slots for
`c` total `k`, and every live `c` slot is stamped `t0`. -/
def corrInv (c t0 k : Nat) (s : ZbCorrState) : Prop :=
  eventCount c s.events + pendCount c s.pending = k ∧ pendTimeOK c t0 s.pending

/-- Whether an operation submits correlation id `c`. -/
def submitsCorr (c : Nat) : ZbOp → Prop
  | .submit c' _ _ _ _ => c' = c
  | _ => False

theorem eventCount_append (c : Nat) (l1 l2 : List ZbCmdEvent) :
    eventCount c (l1 ++ l2) = eventCount c l1 + eventCount c l2 := by
  unfold eventCount
  rw [List.filter_append, List.length_append]

theorem eventCount_singleton (c : Nat) (e : ZbCmdEvent) :
    eventCount c [e] = if eventCorr e = c then 1 else 0 := by
  unfold eventCount
  by_cases h : eventCorr e = c
  · simp [h]
  · simp [h]

theorem corrInv_init (c t0 : Nat) : corrInv c t0 0 zbInitState := by
  constructor
  · show eventCount c [] + pendCount c _ = 0
    unfold eventCount pendCount zbInitState
    simp
  · intro p hp hin _
    rw [List.eq_of_mem_replicate hp] at hin
    exact absurd hin (by simp)

theorem pendCount_cons (c : Nat) (p : ZbPendingCmd) (l : List ZbPendingCmd) :
    pendCount c (p :: l)
      = (if (p.in_use && p.corr_id == c) = true then 1 else 0) + pendCount c l := by
  unfold pendCount
  rw [List.filter_cons]
  by_cases h : (p.in_use && p.corr_id == c) = true
  · simp only [h, if_pos, List.length_cons]
    omega
  · simp [h]

theorem pendTimeOK_cons (c t0 : Nat) (p : ZbPendingCmd) (l : List ZbPendingCmd) :
    pendTimeOK c t0 (p :: l)
      ↔ ((p.in_use = true → p.corr_id = c → p.timestamp_ms = t0)
          ∧ pendTimeOK c t0 l) := by
  unfold pendTimeOK
  exact List.forall_mem_cons

theorem alloc_counts (c corr cl cm now tsn : Nat) :
    ∀ l l', allocPendingWithTsn l corr cl cm now tsn = some l' →
      pendCount c l' = pendCount c l + (if corr = c then 1 else 0) ∧
      (∀ t0, pendTimeOK c t0 l → (corr = c → now = t0) → pendTimeOK c t0 l') := by
  intro l
  induction l with
  | nil => intro l' h; simp [allocPendingWithTsn] at h
  | cons p rest ih =>
    intro l' h
    by_cases hp : p.in_use = true
    · rw [allocPendingWithTsn, if_neg (by simp [hp])] at h
      obtain ⟨b, hb, rfl⟩ := Option.map_eq_some'.mp h
      obtain ⟨hcount, htime⟩ := ih b hb
      constructor
      · rw [pendCount_cons, pendCount_cons, hcount]
        omega
      · intro t0 hok hcc
        rw [pendTimeOK_cons] at hok ⊢
        exact ⟨hok.1, htime t0 hok.2 hcc⟩
    · rw [allocPendingWithTsn, if_pos (by simp [hp])] at h
      cases h
      constructor
      · rw [pendCount_cons, pendCount_cons]
        have hpf : (p.in_use && p.corr_id == c) = false := by simp [hp]
        rw [hpf]
        by_cases hcc : corr = c
        · simp [hcc]
          all_goals omega
        · simp [hcc]
      · intro t0 hok hcc
        rw [pendTimeOK_cons] at hok ⊢
        exact ⟨fun _ hcorr => hcc hcorr, hok.2⟩

theorem sendStatus_counts (c tsn : Nat) :
    ∀ l : List ZbPendingCmd,
      ((sendStatusPending l tsn).2 = none → (sendStatusPending l tsn).1 = l) ∧
      (∀ p, (sendStatusPending l tsn).2 = some p →
        p.in_use = true ∧
        pendCount c l = pendCount c (sendStatusPending l tsn).1
            + (if p.corr_id = c then 1 else 0) ∧
        (∀ t0, pendTimeOK c t0 l → pendTimeOK c t0 (sendStatusPending l tsn).1)) := by
  intro l
  induction l with
  | nil =>
    refine ⟨fun _ => rfl, fun p hp => ?_⟩
    simp [sendStatusPending] at hp
  | cons q rest ih =>
    by_cases hq : (q.in_use && q.tsn == tsn) = true
    · constructor
      · intro hnone
        rw [sendStatusPending, if_pos hq] at hnone
        exact Option.noConfusion hnone
      · intro p hp
        rw [sendStatusPending, if_pos hq] at hp
        have hpq : q = p := Option.some.inj hp
        subst hpq
        have hin : q.in_use = true := by
          have h2 := hq
          rw [Bool.and_eq_true] at h2
          exact h2.1
        refine ⟨hin, ?_, ?_⟩
        · rw [sendStatusPending, if_pos hq]
          show pendCount c (q :: rest)
            = pendCount c ({ q with in_use := false } :: rest) + _
          rw [pendCount_cons, pendCount_cons]
          have h2 : (({ q with in_use := false } : ZbPendingCmd).in_use
              && ({ q with in_use := false } : ZbPendingCmd).corr_id == c)
                = false := by simp
          rw [h2]
          by_cases hcc : q.corr_id = c
          · have hb : (q.in_use && q.corr_id == c) = true := by simp [hin, hcc]
            rw [hb, if_pos hcc]
            simp
            all_goals omega
          · have hb : (q.in_use && q.corr_id == c) = false := by simp [hin, hcc]
            rw [hb, if_neg hcc]
            simp
        · intro t0 hok
          rw [sendStatusPending, if_pos hq]
          rw [pendTimeOK_cons] at hok ⊢
          exact ⟨by simp, hok.2⟩
    · constructor
      · intro hnone
        rw [sendStatusPending, if_neg hq] at hnone ⊢
        rw [ih.1 hnone]
      · intro p hp
        rw [sendStatusPending, if_neg hq] at hp
        obtain ⟨hin, hcount, htime⟩ := ih.2 p hp
        refine ⟨hin, ?_, ?_⟩
        · rw [sendStatusPending, if_neg hq]
          show pendCount c (q :: rest) = pendCount c (q :: _) + _
          rw [pendCount_cons, pendCount_cons, hcount]
          omega
        · intro t0 hok
          rw [sendStatusPending, if_neg hq]
          rw [pendTimeOK_cons] at hok ⊢
          exact ⟨hok.1, htime t0 hok.2⟩

theorem eventCount_error_cons (c corr err : Nat) (evs : List ZbCmdEvent) :
    eventCount c (ZbCmdEvent.error corr err :: evs)
      = (if corr = c then 1 else 0) + eventCount c evs := by
  unfold eventCount
  rw [List.filter_cons]
  have he : eventCorr (ZbCmdEvent.error corr err) = corr := rfl
  by_cases hcc : corr = c
  · rw [if_pos (show (eventCorr (ZbCmdEvent.error corr err) == c) = true by
        rw [he, beq_iff_eq]; exact hcc), if_pos hcc]
    simp only [List.length_cons]
    omega
  · rw [if_neg (show ¬ (eventCorr (ZbCmdEvent.error corr err) == c) = true by
        rw [he, beq_iff_eq]; exact hcc), if_neg hcc]
    simp

theorem purge_counts (c now : Nat) :
    ∀ l : List ZbPendingCmd,
      pendCount c l = pendCount c (purgePending now l).1
          + eventCount c (purgePending now l).2 ∧
      (∀ t0, pendTimeOK c t0 l → pendTimeOK c t0 (purgePending now l).1) := by
  intro l
  induction l with
  | nil => exact ⟨rfl, fun t0 h => h⟩
  | cons p rest ih =>
    by_cases hp : p.in_use = true ∧ ZB_CMD_TIMEOUT_MS < now - p.timestamp_ms
    · constructor
      · rw [purgePending, if_pos hp]
        show pendCount c (p :: rest)
          = pendCount c ({ p with in_use := false } :: _)
            + eventCount c (ZbCmdEvent.error p.corr_id ZB_ERR_TIMEOUT_MARKER :: _)
        rw [pendCount_cons, pendCount_cons, eventCount_error_cons]
        have h2 : (({ p with in_use := false } : ZbPendingCmd).in_use
            && ({ p with in_use := false } : ZbPendingCmd).corr_id == c)
              = false := by simp
        rw [h2]
        have ih1 := ih.1
        by_cases hcc : p.corr_id = c
        · have hb : (p.in_use && p.corr_id == c) = true := by simp [hp.1, hcc]
          rw [hb, if_pos hcc]
          simp
          all_goals omega
        · have hb : (p.in_use && p.corr_id == c) = false := by simp [hp.1, hcc]
          rw [hb, if_neg hcc]
          simp
          all_goals omega
      · intro t0 hok
        rw [purgePending, if_pos hp]
        rw [pendTimeOK_cons] at hok ⊢
        exact ⟨by simp, (ih.2) t0 hok.2⟩
    · constructor
      · rw [purgePending, if_neg hp]
        show pendCount c (p :: rest)
          = pendCount c (p :: (purgePending now rest).1)
            + eventCount c (purgePending now rest).2
        rw [pendCount_cons, pendCount_cons]
        have ih1 := ih.1
        omega
      · intro t0 hok
        rw [purgePending, if_neg hp]
        rw [pendTimeOK_cons] at hok ⊢
        exact ⟨hok.1, (ih.2) t0 hok.2⟩

theorem purge_clears (c t0 now : Nat) (hlate : t0 + ZB_CMD_TIMEOUT_MS < now) :
    ∀ l : List ZbPendingCmd, pendTimeOK c t0 l →
      pendCount c (purgePending now l).1 = 0 := by
  intro l
  induction l with
  | nil => intro _; rfl
  | cons p rest ih =>
    intro hok
    rw [pendTimeOK_cons] at hok
    by_cases hp : p.in_use = true ∧ ZB_CMD_TIMEOUT_MS < now - p.timestamp_ms
    · rw [purgePending, if_pos hp]
      rw [pendCount_cons]
      have h2 : (({ p with in_use := false } : ZbPendingCmd).in_use
          && ({ p with in_use := false } : ZbPendingCmd).corr_id == c)
            = false := by simp
      rw [h2]
      simpa using ih hok.2
    · rw [purgePending, if_neg hp]
      rw [pendCount_cons]
      have hhead : (p.in_use && p.corr_id == c) = false := by
        by_cases hin : p.in_use = true
        · by_cases hcc : p.corr_id = c
          · exfalso
            have hts := hok.1 hin hcc
            exact hp ⟨hin, by omega⟩
          · simp [hin, hcc]
        · simp [hin]
      rw [hhead]
      simpa using ih hok.2

theorem corrInv_step (c t0 k : Nat) (s : ZbCorrState) (op : ZbOp)
    (hop : ¬ submitsCorr c op) (h : corrInv c t0 k s) :
    corrInv c t0 k (zbStep s op) := by
  obtain ⟨hsum, htime⟩ := h
  cases op with
  | submit corr cl cm now tsn =>
    show corrInv c t0 k (zb_submit_cmd s corr cl cm now tsn).2
    have hne : corr ≠ c := hop
    unfold zb_submit_cmd
    by_cases hz : corr = 0
    · rw [if_pos hz]; exact ⟨hsum, htime⟩
    · rw [if_neg hz]
      cases ha : allocPendingWithTsn s.pending corr cl cm now tsn with
      | none => exact ⟨hsum, htime⟩
      | some pending' =>
        obtain ⟨hcount, htimef⟩ := alloc_counts c corr cl cm now tsn s.pending pending' ha
        refine ⟨?_, htimef t0 htime (fun hcc => absurd hcc hne)⟩
        show eventCount c s.events + pendCount c pending' = k
        rw [hcount, if_neg hne]
        omega
  | sendStatus tsn status =>
    show corrInv c t0 k (zb_cmd_send_status_cb s tsn status)
    unfold zb_cmd_send_status_cb
    cases hf : (sendStatusPending s.pending tsn).2 with
    | none => exact ⟨hsum, htime⟩
    | some p =>
      obtain ⟨hin, hcount, htimef⟩ := (sendStatus_counts c tsn s.pending).2 p hf
      constructor
      · show eventCount c (s.events ++
            [if status = 0 then ZbCmdEvent.confirm p.corr_id 0
             else ZbCmdEvent.error p.corr_id status])
          + pendCount c (sendStatusPending s.pending tsn).1 = k
        rw [eventCount_append]
        have hev : eventCount c [if status = 0 then ZbCmdEvent.confirm p.corr_id 0
            else ZbCmdEvent.error p.corr_id status]
              = if p.corr_id = c then 1 else 0 := by
          by_cases hst : status = 0
          · rw [if_pos hst, eventCount_singleton]
            rfl
          · rw [if_neg hst, eventCount_singleton]
            rfl
        rw [hev]
        omega
      · exact htimef t0 htime
  | purge now =>
    show corrInv c t0 k (pending_purge_timeouts s now)
    obtain ⟨hcount, htimef⟩ := purge_counts c now s.pending
    constructor
    · show eventCount c (s.events ++ (purgePending now s.pending).2)
        + pendCount c (purgePending now s.pending).1 = k
      rw [eventCount_append]
      omega
    · exact htimef t0 htime

theorem corrInv_run (c t0 k : Nat) :
    ∀ ops : List ZbOp, (∀ op ∈ ops, ¬ submitsCorr c op) →
      ∀ s, corrInv c t0 k s → corrInv c t0 k (zbRun s ops) := by
  intro ops
  induction ops with
  | nil => intro _ s h; exact h
  | cons op rest ih =>
    intro hops s h
    exact ih (fun x hx => hops x (List.mem_cons_of_mem op hx)) (zbStep s op)
      (corrInv_step c t0 k s op (hops op (List.mem_cons_self op rest)) h)

theorem corrInv_after_submit (c t0 cl cm tsn : Nat) (s : ZbCorrState)
    (hc : c ≠ 0) (h : corrInv c t0 0 s)
    (halloc : (allocPendingWithTsn s.pending c cl cm t0 tsn).isSome = true) :
    corrInv c t0 1 (zbStep s (ZbOp.submit c cl cm t0 tsn)) := by
  obtain ⟨hsum, htime⟩ := h
  obtain ⟨pending', hp⟩ := Option.isSome_iff_exists.mp halloc
  show corrInv c t0 1 (zb_submit_cmd s c cl cm t0 tsn).2
  unfold zb_submit_cmd
  rw [if_neg hc, hp]
  obtain ⟨hcount, htimef⟩ := alloc_counts c c cl cm t0 tsn s.pending pending' hp
  refine ⟨?_, htimef t0 htime (fun _ => rfl)⟩
  show eventCount c s.events + pendCount c pending' = 1
  rw [hcount, if_pos rfl]
  omega

theorem eventCount_step_mono (c : Nat) (s : ZbCorrState) (op : ZbOp) :
    eventCount c s.events ≤ eventCount c (zbStep s op).events := by
  cases op with
  | submit corr cl cm now tsn =>
    show _ ≤ eventCount c (zb_submit_cmd s corr cl cm now tsn).2.events
    unfold zb_submit_cmd
    by_cases hz : corr = 0
    · rw [if_pos hz]
    · rw [if_neg hz]
      cases ha : allocPendingWithTsn s.pending corr cl cm now tsn with
      | none => exact Nat.le_refl _
      | some pending' => exact Nat.le_refl _
  | sendStatus tsn status =>
    show _ ≤ eventCount c (zb_cmd_send_status_cb s tsn status).events
    unfold zb_cmd_send_status_cb
    cases hf : (sendStatusPending s.pending tsn).2 with
    | none => exact Nat.le_refl _
    | some p =>
      show _ ≤ eventCount c (s.events ++ _)
      rw [eventCount_append]
      omega
  | purge now =>
    show _ ≤ eventCount c (pending_purge_timeouts s now).events
    unfold pending_purge_timeouts
    show _ ≤ eventCount c (s.events ++ _)
    rw [eventCount_append]
    omega

theorem eventCount_run_mono (c : Nat) :
    ∀ ops : List ZbOp, ∀ s : ZbCorrState,
      eventCount c s.events ≤ eventCount c (zbRun s ops).events := by
  intro ops
  induction ops with
  | nil => intro s; exact Nat.le_refl _
  | cons op rest ih =>
    intro s
    exact Nat.le_trans (eventCount_step_mono c s op) (ih (zbStep s op))

/-- C1.  For every radio command submitted with `corr_id ≠ 0` (successful
slot allocation plus TSN capture), exactly one `ZB_CMD_CONFIRM` or
`ZB_CMD_ERROR` carrying that correlation id is emitted — never zero and
never two.  The trace is any interleaving of submissions (with fresh
correlation ids — spec invariant 6 — expressed by `¬ submitsCorr c`),
send-status callbacks with arbitrary TSNs and statuses, and sweeper runs;
"within `T_cmd`" is witnessed by the run of the sweeper at a time past the
submission time plus `ZB_CMD_TIMEOUT_MS`: by then the count is already
exactly one and stays so forever after (either the TSN-matched callback
resolved the slot and emitted its one event, or that sweeper run frees
the slot emitting the one timeout `ZB_CMD_ERROR`). -/
theorem zb_cmd_exactly_one (pre mid post : List ZbOp) (c cl cm t0 tsn nowp : Nat)
    (hc : c ≠ 0)
    (hpre : ∀ op ∈ pre, ¬ submitsCorr c op)
    (hmid : ∀ op ∈ mid, ¬ submitsCorr c op)
    (hpost : ∀ op ∈ post, ¬ submitsCorr c op)
    (halloc : (allocPendingWithTsn (zbRun zbInitState pre).pending
        c cl cm t0 tsn).isSome = true)
    (hlate : t0 + ZB_CMD_TIMEOUT_MS < nowp) :
    eventCount c (zbRun zbInitState
      (pre ++ ZbOp.submit c cl cm t0 tsn
        :: (mid ++ ZbOp.purge nowp :: post))).events = 1 := by
  have hsplit : zbRun zbInitState
      (pre ++ ZbOp.submit c cl cm t0 tsn :: (mid ++ ZbOp.purge nowp :: post))
      = zbRun (zbStep (zbRun (zbStep (zbRun zbInitState pre)
          (ZbOp.submit c cl cm t0 tsn)) mid) (ZbOp.purge nowp)) post := by
    unfold zbRun
    rw [List.foldl_append, List.foldl_cons, List.foldl_append, List.foldl_cons]
  rw [hsplit]
  have h1 : corrInv c t0 0 (zbRun zbInitState pre) :=
    corrInv_run c t0 0 pre hpre zbInitState (corrInv_init c t0)
  have h2 : corrInv c t0 1 (zbStep (zbRun zbInitState pre)
      (ZbOp.submit c cl cm t0 tsn)) :=
    corrInv_after_submit c t0 cl cm tsn (zbRun zbInitState pre) hc h1 halloc
  have h3 : corrInv c t0 1 (zbRun (zbStep (zbRun zbInitState pre)
      (ZbOp.submit c cl cm t0 tsn)) mid) :=
    corrInv_run c t0 1 mid hmid _ h2
  have h4 : corrInv c t0 1 (zbStep (zbRun (zbStep (zbRun zbInitState pre)
      (ZbOp.submit c cl cm t0 tsn)) mid) (ZbOp.purge nowp)) :=
    corrInv_step c t0 1 _ (ZbOp.purge nowp) not_false h3
  have h4e : eventCount c (zbStep (zbRun (zbStep (zbRun zbInitState pre)
      (ZbOp.submit c cl cm t0 tsn)) mid) (ZbOp.purge nowp)).events = 1 := by
    have hclear : pendCount c (zbStep (zbRun (zbStep (zbRun zbInitState pre)
        (ZbOp.submit c cl cm t0 tsn)) mid) (ZbOp.purge nowp)).pending = 0 := by
      show pendCount c (pending_purge_timeouts _ nowp).pending = 0
      unfold pending_purge_timeouts
      exact purge_clears c t0 nowp hlate _ h3.2
    have hs := h4.1
    omega
  have h5 := corrInv_run c t0 1 post hpost _ h4
  have hmono := eventCount_run_mono c post (zbStep (zbRun (zbStep
      (zbRun zbInitState pre) (ZbOp.submit c cl cm t0 tsn)) mid) (ZbOp.purge nowp))
  have hs5 := h5.1
  omega

/-- Witness for C1: a minimal trace — one submission with `corr_id = 7`,
then the sweeper at `t = 10011 ms` — yields exactly one event for 7. -/
theorem zb_cmd_exactly_one_witness :
    eventCount 7 (zbRun zbInitState
      ([] ++ ZbOp.submit 7 0x0006 1 0 3
        :: ([] ++ ZbOp.purge 10011 :: []))).events = 1 :=
  zb_cmd_exactly_one [] [] [] 7 0x0006 1 0 3 10011 (by decide)
    (by intro op hop; simp at hop) (by intro op hop; simp at hop)
    (by intro op hop; simp at hop) (by decide) (by decide)

end Bridge
